import Mathlib

/-!
Verification of the TradeRiskGuard trade-data ingestion and risk-scoring
pipeline, shallowly embedded from the Python sources under
`API_Backend/core` and `API_Backend/api`.  Machine floats are modelled by
`ℚ`; Python `dict`s (insertion ordered) by association lists; code that can
raise is modelled in `Except`/`Option`.
-/

/-! ### Python numeric helpers -/

/-- Python `round` to an integer: round half to even (banker's rounding),
modelled on the exact rational value. -/
def pyRound (q : ℚ) : ℤ :=
  if q - ⌊q⌋ < 1/2 then ⌊q⌋
  else if 1/2 < q - ⌊q⌋ then ⌊q⌋ + 1
  else if ⌊q⌋ % 2 = 0 then ⌊q⌋ else ⌊q⌋ + 1

/-- Python `round(x, 2)`. -/
def round2 (q : ℚ) : ℚ := (pyRound (q * 100) : ℚ) / 100

instance {ε α : Type} [DecidableEq ε] [DecidableEq α] : DecidableEq (Except ε α)
  | .error e, .error f =>
    if h : e = f then .isTrue (by rw [h]) else .isFalse (by simp [h])
  | .error _, .ok _ => .isFalse (by simp)
  | .ok _, .error _ => .isFalse (by simp)
  | .ok a, .ok b =>
    if h : a = b then .isTrue (by rw [h]) else .isFalse (by simp [h])

/-! ### Stable sorting (Python `list.sort` / `sorted` are stable) -/

/-- Insert into a descending-sorted list, after all entries whose key is
greater or equal: combined with `sortByDesc` this is a stable descending
sort, the semantics of Python `sorted(..., key=..., reverse=True)`. -/
def insertByDesc {α β : Type} [LinearOrder β] (key : α → β) (x : α) :
    List α → List α
  | [] => [x]
  | y :: ys => if key y ≤ key x then x :: y :: ys else y :: insertByDesc key x ys

/-- Stable descending sort by key (Python `sorted(..., reverse=True)`). -/
def sortByDesc {α β : Type} [LinearOrder β] (key : α → β) : List α → List α
  | [] => []
  | x :: xs => insertByDesc key x (sortByDesc key xs)

/-- Insert into an ascending-sorted list, before all entries whose key is
greater or equal: combined with `sortByAsc` this is a stable ascending sort,
the semantics of Python `sorted(...)` / `DataFrame.sort_values`. -/
def insertByAsc {α β : Type} [LinearOrder β] (key : α → β) (x : α) :
    List α → List α
  | [] => [x]
  | y :: ys => if key x ≤ key y then x :: y :: ys else y :: insertByAsc key x ys

/-- Stable ascending sort by key. -/
def sortByAsc {α β : Type} [LinearOrder β] (key : α → β) : List α → List α
  | [] => []
  | x :: xs => insertByAsc key x (sortByAsc key xs)

/-- The first element of maximal key, in list order (the selection a stable
descending sort followed by taking the head performs). -/
def firstMaxBy {α β : Type} [LinearOrder β] (key : α → β) : List α → Option α
  | [] => none
  | x :: xs =>
    some ((firstMaxBy key xs).elim x (fun m => if key x < key m then m else x))

/-! ### RiskScorer (`core/risk_scorer.py`) -/

/-- The `RiskScorer.risk_weights`: fixed penalty weight per risk kind. -/
def risk_weights : List (String × ℚ) :=
  [("over_leverage", 30), ("no_stop_loss", 25), ("high_drawdown", 20),
   ("revenge_trading", 15), ("poor_rr_ratio", 10), ("low_win_rate", 5),
   ("concentration_risk", 5), ("overtrading", 5)]

/-- Dictionary lookup `self.risk_weights[risk_name]` guarded by
`risk_name in self.risk_weights`. -/
def weightOf (name : String) : Option ℚ :=
  (risk_weights.find? (fun p => p.1 == name)).map (·.2)

/-- The `RiskScorer.grade_boundaries`: grade, lower bound, upper bound. -/
def grade_boundaries : List (String × ℚ × ℚ) :=
  [("A", 80, 100), ("B", 60, 79), ("C", 40, 59), ("D", 0, 39)]

/-- The `RiskScorer._get_grade`: first band with `lower <= score <= upper`,
falling back to `"D"`. -/
def get_grade (score : ℚ) : String :=
  match grade_boundaries.find?
      (fun g => decide (g.2.1 ≤ score) && decide (score ≤ g.2.2)) with
  | some g => g.1
  | none => "D"

structure BreakdownItem where
  risk : String
  severity : ℚ
  weight : ℚ
  contribution : ℚ
deriving DecidableEq, Repr

structure ScoreResult where
  score : ℚ
  grade : String
  improvement_potential : ℚ
  total_risks : ℕ
  breakdown : List BreakdownItem
  top_risks : List String
deriving DecidableEq, Repr

/-- The no-findings shortcut `RiskScorer._perfect_score`. -/
def perfect_score : ScoreResult :=
  { score := 95, grade := "A", improvement_potential := 5, total_risks := 0,
    breakdown := [], top_risks := [] }

/-- The loop body of `calculate_score`: entries of `risk_details` whose name
has a weight, in insertion order, with the unrounded contribution
(`severity/100*weight`) used for the score and the rounded one stored in the
breakdown. -/
def scoreItems (risk_details : List (String × ℚ)) : List BreakdownItem :=
  risk_details.filterMap (fun p =>
    (weightOf p.1).map (fun w =>
      { risk := p.1, severity := p.2, weight := w,
        contribution := round2 (p.2 / 100 * w) }))

/-- The `RiskScorer.calculate_score`, on `risk_details` as an association list
name ↦ severity (the 'message' text of each finding plays no role in the
computation and is omitted). -/
def calculate_score (risk_details : List (String × ℚ)) : ScoreResult :=
  if risk_details = [] then perfect_score
  else
    let items := scoreItems risk_details
    let total_weight_used : ℚ := (items.map (·.weight)).sum
    let total_risk_impact : ℚ :=
      (items.map (fun i => i.severity / 100 * i.weight)).sum
    let raw_score : ℚ := max 0 (100 - total_risk_impact)
    let raw_score' : ℚ :=
      if total_weight_used < 100 then
        (raw_score * total_weight_used + 100 * (100 - total_weight_used)) / 100
      else raw_score
    let final_score := round2 raw_score'
    { score := final_score,
      grade := get_grade final_score,
      improvement_potential := round2 (100 - final_score),
      total_risks := risk_details.length,
      breakdown := items,
      top_risks := ((sortByDesc (·.contribution) items).take 3).map (·.risk) }

/-! ### RiskRuleEngine (`core/risk_rules.py`) -/

/-- A pandas scalar that may be NaN (e.g. the mean of an empty series).
Comparisons against NaN are false, as in IEEE arithmetic. -/
inductive PVal where
  | nan : PVal
  | num (q : ℚ) : PVal
deriving DecidableEq, Repr

/-- Comparison `x > t` on a possibly-NaN value. -/
def PVal.gtQ (v : PVal) (t : ℚ) : Bool :=
  match v with
  | .nan => false
  | .num q => decide (t < q)

/-- Comparison `x < t` on a possibly-NaN value. -/
def PVal.ltQ (v : PVal) (t : ℚ) : Bool :=
  match v with
  | .nan => false
  | .num q => decide (q < t)

/-- Python `round(x, 2)` on a possibly-NaN value (`round(nan)` is NaN). -/
def pvRound2 : PVal → PVal
  | .nan => .nan
  | .num q => .num (round2 q)

/-- The metric entries read by the rule engine, mirroring which keys can be
absent from the metrics dict (`'key' in self.metrics` checks) and which are
read with `metrics.get(key, 0)` defaults. -/
structure MetricsView where
  total_trades : ℕ := 0
  avg_position_size_pct : Option PVal := none
  max_position_size_pct : Option PVal := none
  sl_usage_rate : Option PVal := none
  max_drawdown_pct : Option PVal := none
  revenge_trading_pct : Option PVal := none
  revenge_trades_count : ℕ := 0
  risk_reward_ratio : Option PVal := none
  win_rate : Option PVal := none
  avg_trade_duration_hours : Option PVal := none
deriving DecidableEq, Repr

/-- One entry of `RiskRuleEngine.risk_details`: the severity plus the
rule-specific numeric fields; the formatted `message` string plays no role in
any computation and is omitted. -/
structure RiskDetail where
  severity : ℚ
  values : List (String × PVal) := []
  top_symbol : Option String := none
deriving DecidableEq, Repr

/-- The `RiskRuleEngine._calculate_severity`. -/
def calculate_severity (value threshold max_value : ℚ) : ℚ :=
  if max 0 (max_value - threshold) = 0 then
    (if 0 < max 0 (value - threshold) then 100 else 0)
  else round2 (min 100 (max 0 (value - threshold) / max 0 (max_value - threshold) * 100))

/-- The `RiskRuleEngine.detect_position_size_risk` (threshold 2.0, max ref 5.0). -/
def detect_position_size_risk (m : MetricsView) : Option (String × RiskDetail) :=
  match m.avg_position_size_pct with
  | none => none
  | some v =>
    match v with
    | .nan => none
    | .num avg =>
      if 2 < avg then
        some ("over_leverage",
          { severity := calculate_severity avg 2 5,
            values := [("avg_position_size_pct", .num (round2 avg)),
                       ("max_position_size_pct",
                         pvRound2 ((m.max_position_size_pct).getD (.num 0))),
                       ("threshold", .num 2)] })
      else none

/-- The `RiskRuleEngine.detect_stop_loss_risk` (threshold 80): note the argument
order of the `_calculate_severity(threshold, sl_rate, threshold)` call. -/
def detect_stop_loss_risk (m : MetricsView) : Option (String × RiskDetail) :=
  match m.sl_usage_rate with
  | none => none
  | some v =>
    match v with
    | .nan => none
    | .num sl =>
      if sl < 80 then
        some ("no_stop_loss",
          { severity := calculate_severity 80 sl 80,
            values := [("sl_usage_rate", .num (round2 sl)),
                       ("trades_without_sl",
                         .num (pyRound ((100 - sl) * m.total_trades / 100) : ℤ)),
                       ("threshold", .num 80)] })
      else none

/-- The `RiskRuleEngine.detect_drawdown_risk` (threshold 20, max ref 50). -/
def detect_drawdown_risk (m : MetricsView) : Option (String × RiskDetail) :=
  match m.max_drawdown_pct with
  | none => none
  | some v =>
    match v with
    | .nan => none
    | .num dd =>
      if 20 < dd then
        some ("high_drawdown",
          { severity := calculate_severity dd 20 50,
            values := [("max_drawdown_pct", .num (round2 dd)),
                       ("threshold", .num 20)] })
      else none

/-- The `RiskRuleEngine.detect_revenge_trading_risk` (threshold 10, max ref 30). -/
def detect_revenge_trading_risk (m : MetricsView) : Option (String × RiskDetail) :=
  match m.revenge_trading_pct with
  | none => none
  | some v =>
    match v with
    | .nan => none
    | .num rp =>
      if 10 < rp then
        some ("revenge_trading",
          { severity := calculate_severity rp 10 30,
            values := [("revenge_trades_pct", .num (round2 rp)),
                       ("revenge_trades_count", .num m.revenge_trades_count),
                       ("threshold", .num 10)] })
      else none

/-- The `RiskRuleEngine.detect_rr_ratio_risk` (threshold 1.0): again the
`_calculate_severity(threshold, rr_ratio, threshold)` argument order. -/
def detect_rr_ratio_risk (m : MetricsView) : Option (String × RiskDetail) :=
  match m.risk_reward_ratio with
  | none => none
  | some v =>
    match v with
    | .nan => none
    | .num rr =>
      if rr < 1 then
        some ("poor_rr_ratio",
          { severity := calculate_severity 1 rr 1,
            values := [("current_rr_ratio", .num (round2 rr)),
                       ("threshold", .num 1)] })
      else none

/-- The `RiskRuleEngine.detect_win_rate_risk` (threshold 40): again the
`_calculate_severity(threshold, win_rate, threshold)` argument order. -/
def detect_win_rate_risk (m : MetricsView) : Option (String × RiskDetail) :=
  match m.win_rate with
  | none => none
  | some v =>
    match v with
    | .nan => none
    | .num wr =>
      if wr < 40 then
        some ("low_win_rate",
          { severity := calculate_severity 40 wr 40,
            values := [("current_win_rate", .num (round2 wr)),
                       ("threshold", .num 40)] })
      else none

/-- Distinct values in order of first appearance (the index set of
`value_counts`). -/
def distinctInOrder (l : List String) : List String :=
  l.foldl (fun acc s => if s ∈ acc then acc else acc ++ [s]) []

/-- The `RiskRuleEngine.detect_concentration_risk`: reads the raw `symbol`
column of the frame (when present) rather than the metrics dict.  The top
count of `value_counts` is its maximum count; the tied top symbol is taken
first-come (its name is only echoed in the finding, never computed with). -/
def detect_concentration_risk (symbols : Option (List String)) (nrows : ℕ) :
    Option (String × RiskDetail) :=
  match symbols with
  | none => none
  | some syms =>
    let distinct := distinctInOrder syms
    if distinct.isEmpty then none
    else
      let top_count := (distinct.map (fun s => syms.count s)).foldr max 0
      let top_pct : ℚ := (top_count : ℚ) / (nrows : ℚ) * 100
      if 50 < top_pct then
        some ("concentration_risk",
          { severity := calculate_severity top_pct 50 80,
            values := [("concentration_pct", .num (round2 top_pct)),
                       ("unique_symbols", .num distinct.length)],
            top_symbol := firstMaxBy (fun s => syms.count s) distinct })
      else none

/-- The `RiskRuleEngine.detect_overtrading_risk` (duration < 1h, > 20 trades,
trades/day over a fixed 30-day window > 5; severity `min(100, tpd*10)`,
not produced by `_calculate_severity`). -/
def detect_overtrading_risk (m : MetricsView) : Option (String × RiskDetail) :=
  match m.avg_trade_duration_hours with
  | none => none
  | some v =>
    match v with
    | .nan => none
    | .num d =>
      if d < 1 ∧ 20 < m.total_trades then
        let trades_per_day : ℚ := (m.total_trades : ℚ) / 30
        if 5 < trades_per_day then
          some ("overtrading",
            { severity := min 100 (trades_per_day * 10),
              values := [("avg_trade_duration_hours", .num (round2 d)),
                         ("trades_per_day", .num (round2 trades_per_day)),
                         ("total_trades", .num m.total_trades)] })
        else none
      else none

/-- The `RiskRuleEngine.detect_all_risks`: the eight detectors run in source
order, each appending at most one finding to `risk_details`. -/
def detect_all_risks (m : MetricsView) (symbols : Option (List String))
    (nrows : ℕ) : List (String × RiskDetail) :=
  [detect_position_size_risk m, detect_stop_loss_risk m, detect_drawdown_risk m,
   detect_revenge_trading_risk m, detect_rr_ratio_risk m, detect_win_rate_risk m,
   detect_concentration_risk symbols nrows, detect_overtrading_risk m].filterMap id

/-! ### TradeMetricsCalculator (`core/metrics_calculator.py`) -/

/-- The canonical trade frame: `profit_loss` is the one required column, the
others are optional (absent column ↦ `none`).  `exit_time` and `stop_loss`
entries are themselves nullable.  Entry/exit times are timestamps in seconds. -/
structure DataFrame where
  profit_loss : List ℚ
  symbol : Option (List String) := none
  entry_time : Option (List ℚ) := none
  exit_time : Option (List (Option ℚ)) := none
  lot_size : Option (List ℚ) := none
  account_balance_before : Option (List ℚ) := none
  stop_loss : Option (List (Option ℚ)) := none
deriving DecidableEq, Repr

/-- Python `len(df)`. -/
def DataFrame.nrows (df : DataFrame) : ℕ := df.profit_loss.length

/-- Every present column has as many entries as `profit_loss`. -/
def DataFrame.wf (df : DataFrame) : Bool :=
  (match df.symbol with | none => true | some l => l.length == df.nrows) &&
  (match df.entry_time with | none => true | some l => l.length == df.nrows) &&
  (match df.exit_time with | none => true | some l => l.length == df.nrows) &&
  (match df.lot_size with | none => true | some l => l.length == df.nrows) &&
  (match df.account_balance_before with | none => true | some l => l.length == df.nrows) &&
  (match df.stop_loss with | none => true | some l => l.length == df.nrows)

/-- The profit-factor value, with the explicit `+infinity` sentinel
(`float('inf')`). -/
inductive PF where
  | val (q : ℚ) : PF
  | posInf : PF
deriving DecidableEq, Repr

structure BasicMetrics where
  total_trades : ℕ
  winning_trades : ℕ
  losing_trades : ℕ
  win_rate : ℚ
  total_profit : ℚ
  total_loss : ℚ
  net_profit : ℚ
  avg_win : ℚ
  avg_loss : ℚ
  profit_factor : PF
deriving DecidableEq, Repr

/-- The `TradeMetricsCalculator.compute_basic_metrics`. -/
def compute_basic_metrics (df : DataFrame) : BasicMetrics :=
  let wins := df.profit_loss.filter (fun p => decide (0 < p))
  let losses := df.profit_loss.filter (fun p => decide (p < 0))
  let total := df.profit_loss.length
  let total_profit := wins.sum
  let total_loss := |losses.sum|
  { total_trades := total,
    winning_trades := wins.length,
    losing_trades := losses.length,
    win_rate := if 0 < total then (wins.length : ℚ) / (total : ℚ) * 100 else 0,
    total_profit := total_profit,
    total_loss := total_loss,
    net_profit := df.profit_loss.sum,
    avg_win := if 0 < wins.length then total_profit / (wins.length : ℚ) else 0,
    avg_loss := if 0 < losses.length then |losses.sum / (losses.length : ℚ)| else 0,
    profit_factor :=
      if total_loss ≠ 0 then .val (total_profit / total_loss)
      else if 0 < total_profit then .posInf else .val 0 }

/-- Pandas `Series.mean()`: NaN on an empty series. -/
def pvMean (l : List ℚ) : PVal :=
  if l.length = 0 then .nan else .num (l.sum / (l.length : ℚ))

/-- Pandas `Series.max()`: NaN on an empty series. -/
def pvMax (l : List ℚ) : PVal :=
  match l with
  | [] => .nan
  | x :: xs => .num (xs.foldl max x)

structure RiskMetrics where
  avg_position_size_pct : Option PVal
  max_position_size_pct : Option PVal
  sl_usage_rate : Option PVal
  risk_reward_ratio : PVal
deriving DecidableEq, Repr

/-- The `TradeMetricsCalculator.compute_risk_metrics`.  The pandas elementwise
division `lot_size*100000/account_balance_before` never raises — a zero
balance yields an IEEE infinity, which the `ℚ` division abstracts (no theorem
below depends on those values). -/
def compute_risk_metrics (df : DataFrame) : RiskMetrics :=
  let pos : Option (List ℚ) :=
    match df.lot_size, df.account_balance_before with
    | some lots, some bals =>
        some ((lots.zip bals).map (fun p => p.1 * 100000 / p.2 * 100))
    | _, _ => none
  let wins := df.profit_loss.filter (fun p => decide (0 < p))
  let losses := df.profit_loss.filter (fun p => decide (p < 0))
  { avg_position_size_pct := pos.map pvMean,
    max_position_size_pct := pos.map pvMax,
    sl_usage_rate := df.stop_loss.map (fun sls =>
      -- numpy scalar division: `0/0` on an empty frame is NaN, not an error
      if df.nrows = 0 then .nan
      else
        .num ((1 - ((sls.filter (fun s => s.isNone || s == some 0)).length : ℚ)
          / (df.nrows : ℚ)) * 100)),
    risk_reward_ratio := .num (
      if 0 < losses.length ∧ 0 < wins.length then
        let avg_risk := (losses.map (fun p => |p|)).sum / (losses.length : ℚ)
        let avg_reward := wins.sum / (wins.length : ℚ)
        if avg_risk ≠ 0 then avg_reward / avg_risk else 0
      else 0) }

/-- The drawdown loop of `compute_performance_metrics`: running peak, running
maximum drawdown; Python float division raises `ZeroDivisionError` when the
running peak is zero. -/
def max_drawdown_loop : List ℚ → ℚ → ℚ → Except String ℚ
  | [], _, acc => .ok acc
  | b :: rest, peak, acc =>
    let peak' := if peak < b then b else peak
    if peak' = 0 then .error "ZeroDivisionError"
    else
      let dd := (peak' - b) / peak' * 100
      max_drawdown_loop rest peak' (if acc < dd then dd else acc)

/-- The `TradeMetricsCalculator.compute_performance_metrics`: `balances[0]`
raises `IndexError` when the column is present on an empty frame. -/
def compute_performance_metrics (df : DataFrame) : Except String (Option ℚ) :=
  match df.account_balance_before with
  | none => .ok none
  | some [] => .error "IndexError"
  | some (b :: bs) => (max_drawdown_loop (b :: bs) b 0).map some

/-- Hour of day of a timestamp in seconds. -/
def hourOf (t : ℚ) : ℤ := ⌊t / 3600⌋ % 24

/-- Pandas `Series.mode()[0]`: the most frequent value, smallest first on ties
(pandas sorts the mode result ascending). -/
def modeMin (l : List ℤ) : Option ℤ :=
  (l.foldl (fun acc h => if h ∈ acc then acc else acc ++ [h]) []).foldl
    (fun best v =>
      match best with
      | none => some v
      | some b =>
        if l.count b < l.count v || (l.count v == l.count b && v < b) then some v
        else some b) none

structure PatternMetrics where
  avg_trade_duration_hours : PVal
  revenge_trades_count : ℕ
  revenge_trading_pct : ℚ
  most_active_hour : Option ℤ
deriving DecidableEq, Repr

/-- The `TradeMetricsCalculator.compute_pattern_metrics`: raises `KeyError` when
`entry_time` is present but `exit_time` is not (`df['exit_time']`); otherwise
a null exit time gives a NaN duration that `mean()` skips.  Datetime parsing
itself is value-preserving here because canonical records carry valid
timestamps. -/
def compute_pattern_metrics (df : DataFrame) : Except String (Option PatternMetrics) :=
  match df.entry_time with
  | none => .ok none
  | some ets =>
    match df.exit_time with
    | none => .error "KeyError"
    | some xts =>
      let durations := (ets.zip xts).filterMap
        (fun p => p.2.map (fun x => (x - p.1) / 3600))
      let rows := ets.zip df.profit_loss
      let sorted := sortByAsc (fun r => r.1) rows
      let revenge := (sorted.zip sorted.tail).filter
        (fun pr => decide (pr.1.2 < 0) && decide ((pr.2.1 - pr.1.1) / 60 < 30))
      .ok (some {
        avg_trade_duration_hours := pvMean durations,
        revenge_trades_count := revenge.length,
        revenge_trading_pct :=
          if 0 < df.nrows then (revenge.length : ℚ) / (df.nrows : ℚ) * 100 else 0,
        most_active_hour :=
          if 0 < sorted.length then modeMin (sorted.map (fun r => hourOf r.1))
          else none })

structure Metrics where
  basic : BasicMetrics
  risk : RiskMetrics
  max_drawdown_pct : Option ℚ
  pattern : Option PatternMetrics
deriving DecidableEq, Repr

/-- The `TradeMetricsCalculator.compute_all_metrics`: basic and risk metrics
never raise; the performance step runs before the pattern step, so its
exception surfaces first. -/
def compute_all_metrics (df : DataFrame) : Except String Metrics :=
  match compute_performance_metrics df with
  | .error e => .error e
  | .ok dd =>
    match compute_pattern_metrics df with
    | .error e => .error e
    | .ok pat =>
      .ok { basic := compute_basic_metrics df,
            risk := compute_risk_metrics df,
            max_drawdown_pct := dd,
            pattern := pat }

/-- The metrics-dict view the rule engine reads (`win_rate` and
`risk_reward_ratio` are always set; the position-sizing, stop-loss, drawdown
and pattern keys are set only when their source columns were present). -/
def metricsView (m : Metrics) : MetricsView :=
  { total_trades := m.basic.total_trades,
    avg_position_size_pct := m.risk.avg_position_size_pct,
    max_position_size_pct := m.risk.max_position_size_pct,
    sl_usage_rate := m.risk.sl_usage_rate,
    max_drawdown_pct := m.max_drawdown_pct.map .num,
    revenge_trading_pct := m.pattern.map (fun p => .num p.revenge_trading_pct),
    revenge_trades_count := (m.pattern.map (·.revenge_trades_count)).getD 0,
    risk_reward_ratio := some m.risk.risk_reward_ratio,
    win_rate := some (.num m.basic.win_rate),
    avg_trade_duration_hours := m.pattern.map (·.avg_trade_duration_hours) }

structure ChainOut where
  metrics : Metrics
  risk_details : List (String × RiskDetail)
  score : ScoreResult
deriving DecidableEq, Repr

/-- The `df.copy()` of `TradeMetricsCalculator.__init__`: under value semantics
the deep copy is the identity, and it is what keeps the calculator's column
mutations off the caller's frame. -/
def dfCopy (df : DataFrame) : DataFrame := df

structure AnalysisRun where
  callerDf : DataFrame
  output : Except String ChainOut
deriving Repr

/-- The synchronous analysis chain of `process_trade_data`:
metrics → rule engine → scorer, with the caller's frame returned unchanged
(the calculator works on its copy; the rule engine only reads the frame). -/
def run_analysis (df : DataFrame) : AnalysisRun :=
  { callerDf := df,
    output :=
      match compute_all_metrics (dfCopy df) with
      | .error e => .error e
      | .ok m =>
        let rd := detect_all_risks (metricsView m) df.symbol df.nrows
        .ok { metrics := m, risk_details := rd,
              score := calculate_score (rd.map (fun p => (p.1, p.2.severity))) } }

/-! ### MT5 HTML parser (`api/utils/mt5_parser.py`) -/

/-- One table cell, with its tag: header extraction reads both `th` and `td`
cells, data-row extraction reads only `td` cells. -/
structure Cell where
  isTH : Bool
  text : String
deriving DecidableEq, Repr

/-- A `tr` row of extracted cell texts. -/
abbrev HtmlRow := List Cell

/-- A `table` element. -/
abbrev HtmlTable := List HtmlRow

/-- Header cells: `find_all(['th','td'])` with stripped text. -/
def headerCells (r : HtmlRow) : List String := r.map (·.text)

/-- Data cells: `find_all('td')` with stripped text. -/
def dataCells (r : HtmlRow) : List String :=
  (r.filter (fun c => !c.isTH)).map (·.text)

/-- The header signature score: one point per keyword family found among the
exact cell texts. -/
def rowScore (cells : List String) : ℕ :=
  (if cells.contains "Time" || cells.contains "Open Time" then 1 else 0) +
  (if cells.contains "Profit" then 1 else 0) +
  (if cells.contains "Symbol" then 1 else 0) +
  (if cells.contains "Type" then 1 else 0) +
  (if cells.contains "Volume" || cells.contains "Size" then 1 else 0)

/-- One entry of `candidate_tables`:
`(score, table index, table, header cells, header row index)`. -/
structure Cand where
  score : ℕ
  tableIdx : ℕ
  table : HtmlTable
  header : List String
  rowIdx : ℕ
deriving DecidableEq, Repr

/-- The candidate collection loop: the first 50 rows of every table, kept
exactly when the signature score is at least 3, in document order. -/
def candidatesOf (doc : List HtmlTable) : List Cand :=
  doc.enum.flatMap (fun tt =>
    (tt.2.take 50).enum.filterMap (fun rr =>
      if 3 ≤ rowScore (headerCells rr.2) then
        some { score := rowScore (headerCells rr.2), tableIdx := tt.1,
               table := tt.2, header := headerCells rr.2, rowIdx := rr.1 }
      else none))

/-- The `candidate_tables.sort(key=lambda x: x[0], reverse=True)` followed by
taking `candidate_tables[0]` (`none` when the list is empty, the
`ValueError` branch). -/
def select_candidate (doc : List HtmlTable) : Option Cand :=
  (sortByDesc (fun c => c.score) (candidatesOf doc)).head?

/-- The positional column map; `-1` is the unmapped sentinel. -/
structure ColMap where
  entry_time : ℤ := -1
  exit_time : ℤ := -1
  symbol : ℤ := -1
  type : ℤ := -1
  volume : ℤ := -1
  profit : ℤ := -1
  entry_price : ℤ := -1
  exit_price : ℤ := -1
deriving DecidableEq, Repr

/-- Python's substring test `k in h`. -/
def substrOf (needle hay : String) : Bool := decide (needle.data <:+: hay.data)

/-- Python `str.lower()` (charwise, which agrees on the ASCII headers and
type cells involved). -/
def pyLower (s : String) : String := String.mk (s.data.map Char.toLower)

/-- The `find_all_indices`: positions of headers containing any keyword.  The
`sorted(list(set(...)))` of the source is the identity here: positions are
collected in strictly increasing order, at most once each. -/
def find_all_indices (lower_headers : List String) (keywords : List String) :
    List ℕ :=
  lower_headers.enum.filterMap (fun ih =>
    if keywords.any (fun k => substrOf k ih.2) then some ih.1 else none)

/-- First index or `-1`. -/
def idxFirst (l : List ℕ) : ℤ :=
  match l with
  | [] => -1
  | x :: _ => x

/-- Last index or `-1` (the *last* profit-like column wins). -/
def idxLast (l : List ℕ) : ℤ :=
  match l.getLast? with
  | none => -1
  | some x => x

/-- Second index or `-1`. -/
def idxSecond (l : List ℕ) : ℤ :=
  match l with
  | _ :: y :: _ => y
  | _ => -1

/-- The dynamic column mapping over the lowercased header. -/
def build_col_map (header : List String) : ColMap :=
  let lower := header.map pyLower
  let tim := find_all_indices lower ["time", "date"]
  let pri := find_all_indices lower ["price"]
  { symbol := idxFirst (find_all_indices lower ["symbol", "item"]),
    type := idxFirst (find_all_indices lower ["type"]),
    profit := idxLast (find_all_indices lower ["profit"]),
    volume := idxFirst (find_all_indices lower ["volume", "size", "quantity"]),
    entry_time := idxFirst tim,
    exit_time := if 2 ≤ tim.length then idxSecond tim else idxFirst tim,
    entry_price := idxFirst pri,
    exit_price := if 2 ≤ pri.length then idxSecond pri else -1 }

/-- Python `max(col_map.values())`. -/
def requiredIdx (cm : ColMap) : ℤ :=
  cm.entry_time ⊔ cm.exit_time ⊔ cm.symbol ⊔ cm.type ⊔ cm.volume ⊔ cm.profit ⊔
    cm.entry_price ⊔ cm.exit_price

/-- Python list indexing `cells[i]`, with negative indices counting from the
end; `none` is an `IndexError` (caught by the row-level `except`). -/
def pyIndex (cells : List String) (i : ℤ) : Option String :=
  if 0 ≤ i then cells.get? i.toNat
  else if i.natAbs ≤ cells.length then cells.get? (cells.length - i.natAbs)
  else none

/-- Parenthesis negatives: `(50.00)` → `-50.00`. -/
def parenTransform (s : String) : String :=
  if s.data.contains '(' && s.data.contains ')' then
    "-" ++ String.mk (s.data.filter (fun c => !(c == '(' || c == ')')))
  else s

/-- Python `re.sub(r'[^\d\.\-]', '', text)`. -/
def keepNumChars (s : String) : String :=
  String.mk (s.data.filter (fun c => c.isDigit || c == '.' || c == '-'))

/-- Digits to a natural number. -/
def natOfDigits (l : List Char) : ℕ :=
  l.foldl (fun n c => n * 10 + (c.toNat - '0'.toNat)) 0

/-- Python `float(s)` on a string of digits, dots and minus signs: at most one
leading minus, at most one dot, at least one digit. -/
def pyFloat (s : String) : Option ℚ :=
  let (neg, body) :=
    match s.data with
    | '-' :: rest => (true, rest)
    | l => (false, l)
  if body.contains '-' then none
  else if 2 ≤ (body.filter (fun c => c == '.')).length then none
  else if (body.filter (fun c => c.isDigit)).isEmpty then none
  else
    let intPart := body.takeWhile (fun c => !(c == '.'))
    let fracPart := (body.dropWhile (fun c => !(c == '.'))).drop 1
    let mag : ℚ := (natOfDigits intPart : ℚ) +
      (natOfDigits fracPart : ℚ) / ((10 : ℚ) ^ fracPart.length)
    some (if neg then -mag else mag)

/-- The `_clean_number`: empty/falsy text and parse failures give `0.0`. -/
def clean_number (text : String) : ℚ :=
  if text = "" then 0
  else
    match pyFloat (keepNumChars (parenTransform text)) with
    | some q => q
    | none => 0

/-- The `_clean_date`: `None` for empty text, else dots become dashes. -/
def clean_date (text : String) : Option String :=
  if text = "" then none
  else some (String.mk (text.data.map (fun c => if c == '.' then '-' else c)))

/-- One parsed trade row.  The `entry_time`/`exit_time` fields keep the
cleaned date strings handed to `pd.to_datetime(..., errors='coerce')`; the
datetime parse and its `datetime.now()` fallback are not modelled further
because no downstream claim reads those values. -/
structure ParsedTrade where
  trade_id : String := ""
  symbol : String
  trade_type : String
  lot_size : ℚ
  profit_loss : ℚ
  entry_time_raw : Option String
  exit_time_raw : Option String
  entry_price : ℚ
  exit_price : ℚ
deriving DecidableEq, Repr

/-- The per-row body of the parsing loop: `none` is a skipped row (spacer,
ledger-adjustment, empty-symbol/type, or a row-level exception). -/
def parse_row (cm : ColMap) (cells : List String) : Option ParsedTrade :=
  if cells.isEmpty then none
  else if (cells.length : ℤ) ≤ requiredIdx cm then none
  else
    match pyIndex cells cm.symbol with
    | none => none
    | some symbol =>
      match pyIndex cells cm.profit with
      | none => none
      | some profit_raw =>
        match (if cm.type ≠ -1 then pyIndex cells cm.type else some "Unknown") with
        | none => none
        | some trade_type =>
          if symbol = "" || trade_type = "" then none
          else if ["balance", "credit", "total"].contains (pyLower trade_type) then none
          else
            match (if cm.volume ≠ -1 then pyIndex cells cm.volume else some "") with
            | none => none
            | some vol_raw =>
              match (if cm.entry_price ≠ -1 then pyIndex cells cm.entry_price else some "") with
              | none => none
              | some epx_raw =>
                match (if cm.exit_price ≠ -1 then pyIndex cells cm.exit_price else some "") with
                | none => none
                | some xpx_raw =>
                  match (if cm.entry_time ≠ -1 then (pyIndex cells cm.entry_time).map clean_date
                         else some (some "")) with
                  | none => none
                  | some entry_t =>
                    match (if cm.exit_time ≠ -1 then (pyIndex cells cm.exit_time).map clean_date
                           else some entry_t) with
                    | none => none
                    | some exit_t =>
                      some { symbol := symbol, trade_type := trade_type,
                             lot_size := if cm.volume ≠ -1 then clean_number vol_raw else 0,
                             profit_loss := clean_number profit_raw,
                             entry_time_raw := entry_t, exit_time_raw := exit_t,
                             entry_price := if cm.entry_price ≠ -1 then clean_number epx_raw else 0,
                             exit_price := if cm.exit_price ≠ -1 then clean_number xpx_raw else 0 }

/-- The data loop over the rows after the header, assigning
`trade_id = f"mt5_{len(data)+1}"` as rows are accepted. -/
def parse_data_rows (cm : ColMap) (rows : List HtmlRow) : List ParsedTrade :=
  rows.foldl (fun acc r =>
    match parse_row cm (dataCells r) with
    | some t => acc ++ [{ t with trade_id := "mt5_" ++ toString (acc.length + 1) }]
    | none => acc) []

/-- The `parse_mt5_html` on the extracted table structure of the document. -/
def parse_mt5_html (doc : List HtmlTable) : Except String (List ParsedTrade) :=
  match select_candidate doc with
  | none => .error "Could not visually identify an MT5 History table."
  | some c =>
    let cm := build_col_map c.header
    if cm.profit = -1 then .error "Could not find Profit column."
    else
      let trades := parse_data_rows cm (c.table.drop (c.rowIdx + 1))
      if trades.isEmpty then .error "No valid trades found."
      else .ok trades

/-! ### Sync reconciliation (`api/routers/integrations.py`) -/

/-- The mutable payload of a synced trade, the fields of `trade_data` that
`sync_trades_background_task` writes on both the insert and the update path. -/
structure TradePayload where
  transaction_id : String
  contract_id : Option String
  symbol : String
  contract_type : String
  currency : String
  buy_price : ℚ
  sell_price : Option ℚ
  barrier : Option ℚ
  barrier2 : Option ℚ
  stake : ℚ
  payout : Option ℚ
  profit : ℚ
  purchase_time : ℕ
  expiry_time : Option ℕ
  sell_time : Option ℕ
  duration : Option ℕ
  status : String
  exit_spot : Option ℚ
  raw_data : String
deriving DecidableEq, Repr

/-- One fetched external trade. -/
structure TradeData where
  deriv_trade_id : String
  payload : TradePayload
deriving DecidableEq, Repr

/-- One persisted `DerivTrade` record: identity/creation fields never touched
by the update path, the dedup key, and the mutable payload. -/
structure DerivTradeRec where
  id : ℕ
  created_at : ℕ
  connection_id : String
  deriv_trade_id : String
  payload : TradePayload
deriving DecidableEq, Repr

/-- The dedup key `(external_trade_id, connection_id)`. -/
def recKey (r : DerivTradeRec) : String × String := (r.deriv_trade_id, r.connection_id)

/-- The existence query
`select(DerivTrade).where(deriv_trade_id == ..., connection_id == ...)`,
`.first()`. -/
def find_trade (store : List DerivTradeRec) (dtid conn : String) :
    Option DerivTradeRec :=
  store.find? (fun r => r.deriv_trade_id == dtid && r.connection_id == conn)

/-- The update path: on the first matching record, every `trade_data` field
except `id` and `created_at` is overwritten (`deriv_trade_id` is rewritten to
the value it was matched on; `connection_id` is not a `trade_data` key). -/
def update_first (store : List DerivTradeRec) (dtid conn : String)
    (td : TradeData) : List DerivTradeRec :=
  match store with
  | [] => []
  | r :: rest =>
    if r.deriv_trade_id == dtid && r.connection_id == conn then
      { r with deriv_trade_id := td.deriv_trade_id, payload := td.payload } :: rest
    else r :: update_first rest dtid conn td

/-- The reconciliation state: the store plus the id source and the
`new_trades`/`updated_trades` counters. -/
structure SyncState where
  store : List DerivTradeRec
  nextId : ℕ := 0
  trades_new : ℕ := 0
  trades_updated : ℕ := 0
deriving DecidableEq, Repr

/-- The freshly inserted `DerivTrade(...)` record: identity fields from the
persistence layer (`id`, `created_at` defaults), key and payload from the
fetched trade. -/
def freshRec (nextId now : ℕ) (conn : String) (td : TradeData) : DerivTradeRec :=
  { id := nextId, created_at := now, connection_id := conn,
    deriv_trade_id := td.deriv_trade_id, payload := td.payload }

/-- One iteration of the `for trade_data in trades` loop. -/
def sync_step (conn : String) (now : ℕ) (st : SyncState) (td : TradeData) :
    SyncState :=
  match find_trade st.store td.deriv_trade_id conn with
  | some _ =>
    { st with store := update_first st.store td.deriv_trade_id conn td,
              trades_updated := st.trades_updated + 1 }
  | none =>
    { st with
        store := st.store ++ [freshRec st.nextId now conn td],
        nextId := st.nextId + 1,
        trades_new := st.trades_new + 1 }

/-- The whole upsert loop of one sync run over the fetched trade list. -/
def sync_trades (conn : String) (now : ℕ) (ts : List TradeData)
    (st : SyncState) : SyncState :=
  ts.foldl (sync_step conn now) st

/-- The state a later sync run starts from: the persisted store (and id
source), with the per-run counters back at zero. -/
def rerunState (s : SyncState) : SyncState :=
  { store := s.store, nextId := s.nextId }

/-- The running peaks of the drawdown loop (`running_max` at each step). -/
def runningPeaks : ℚ → List ℚ → List ℚ
  | _, [] => []
  | peak, b :: bs =>
    (if peak < b then b else peak) :: runningPeaks (if peak < b then b else peak) bs

/-! ### Example inputs -/

/-- A `risk_details` dict of two genuinely attainable findings: a triggered
stop-loss rule always carries severity 100, and a drawdown of at least 50%
carries severity 100. -/
def rdGap : List (String × ℚ) := [("no_stop_loss", 100), ("high_drawdown", 100)]

/-- The sample frame of `analyze_trades(use_sample=True)` /
`metrics_calculator.test_metrics` (entry/exit times in seconds of day). -/
def sampleDf : DataFrame :=
  { profit_loss := [50, -30, 75, -20],
    lot_size := some [1/10, 1/5, 3/20, 1/10],
    account_balance_before := some [10000, 10050, 10020, 10095],
    stop_loss := some [some (11/10), some (6/5), some (23/20), some (13/10)],
    entry_time := some [36000, 39600, 43200, 44100],
    exit_time := some [some 39600, some 41400, some 46800, some 45900] }

/-- An empty frame that still carries the `account_balance_before` column
(a CSV upload with headers but no data rows). -/
def dfEmptyBal : DataFrame := { profit_loss := [], account_balance_before := some [] }

/-- A frame with `entry_time` but no `exit_time` column. -/
def dfNoExit : DataFrame := { profit_loss := [10], entry_time := some [36000] }

/-- The synthetic broker-HTML table of the parser scenario: the MT5-like
header, one `balance` ledger row, three well-formed trade rows. -/
def mt5Table : HtmlTable :=
  [[⟨true, "Open Time"⟩, ⟨true, "Symbol"⟩, ⟨true, "Type"⟩,
    ⟨true, "Volume"⟩, ⟨true, "Price"⟩, ⟨true, "Profit"⟩],
   [⟨false, "2024.01.02 09:00"⟩, ⟨false, "account"⟩, ⟨false, "balance"⟩,
    ⟨false, ""⟩, ⟨false, ""⟩, ⟨false, "1 000.00"⟩],
   [⟨false, "2024.01.02 10:00"⟩, ⟨false, "EURUSD"⟩, ⟨false, "buy"⟩,
    ⟨false, "0.10"⟩, ⟨false, "1.1000"⟩, ⟨false, "$50.00"⟩],
   [⟨false, "2024.01.02 11:00"⟩, ⟨false, "GBPUSD"⟩, ⟨false, "sell"⟩,
    ⟨false, "0.20"⟩, ⟨false, "1.2500"⟩, ⟨false, "(30.00)"⟩],
   [⟨false, "2024.01.02 12:00"⟩, ⟨false, "EURUSD"⟩, ⟨false, "buy"⟩,
    ⟨false, "0.15"⟩, ⟨false, "1.1050"⟩, ⟨false, "75.00"⟩]]

/-- The single-table document around `mt5Table`. -/
def mt5Doc : List HtmlTable := [mt5Table]

/-- A sample fetched-trade payload. -/
def samplePayload : TradePayload :=
  { transaction_id := "tx1", contract_id := some "ct1", symbol := "R_100",
    contract_type := "RISE", currency := "USD", buy_price := 10,
    sell_price := some 19, barrier := none, barrier2 := none, stake := 10,
    payout := some 19, profit := 9, purchase_time := 1700000000,
    expiry_time := none, sell_time := some 1700000300, duration := some 300,
    status := "sold", exit_spot := none, raw_data := "{}" }

/-- A second payload under another external id. -/
def samplePayload2 : TradePayload :=
  { samplePayload with transaction_id := "tx2", profit := -10, status := "lost" }

/-- A fetched broker list of two distinct trades. -/
def sampleFetch : List TradeData :=
  [{ deriv_trade_id := "tx1", payload := samplePayload },
   { deriv_trade_id := "tx2", payload := samplePayload2 }]

/-! ### Helper lemmas -/

theorem floor_lt_of_frac {q : ℚ} (h : ¬ q - ⌊q⌋ < 1/2) : ⌊q⌋ < ⌈q⌉ := by
  push_neg at h
  have hlt : (⌊q⌋ : ℚ) < q := by linarith
  have hcq : q ≤ (⌈q⌉ : ℚ) := Int.le_ceil q
  by_contra hcon
  push_neg at hcon
  have : (⌈q⌉ : ℚ) ≤ (⌊q⌋ : ℚ) := by exact_mod_cast hcon
  linarith

theorem pyRound_le_ceil (q : ℚ) : (pyRound q : ℚ) ≤ ⌈q⌉ := by
  have hfc : (⌊q⌋ : ℚ) ≤ (⌈q⌉ : ℚ) := by exact_mod_cast Int.floor_le_ceil q
  unfold pyRound
  split_ifs with h1 h2 h3
  · exact hfc
  · have := floor_lt_of_frac h1
    push_cast
    have : ⌊q⌋ + 1 ≤ ⌈q⌉ := this
    exact_mod_cast this
  · exact hfc
  · have := floor_lt_of_frac h1
    have : ⌊q⌋ + 1 ≤ ⌈q⌉ := this
    exact_mod_cast this

theorem floor_le_pyRound (q : ℚ) : (⌊q⌋ : ℚ) ≤ (pyRound q : ℚ) := by
  unfold pyRound
  split_ifs <;> push_cast <;> linarith

theorem round2_nonneg {q : ℚ} (h : 0 ≤ q) : 0 ≤ round2 q := by
  unfold round2
  have h1 : (0:ℚ) ≤ (⌊q * 100⌋ : ℚ) := by
    have : (0:ℤ) ≤ ⌊q * 100⌋ := by
      apply Int.floor_nonneg.mpr
      positivity
    exact_mod_cast this
  have h2 := floor_le_pyRound (q * 100)
  have : (0:ℚ) ≤ (pyRound (q * 100) : ℚ) := le_trans h1 h2
  positivity

theorem round2_le_of_le {q b : ℚ} (hb : q ≤ b) (hint : (⌈b * 100⌉ : ℚ) = b * 100) :
    round2 q ≤ b := by
  unfold round2
  have h1 := pyRound_le_ceil (q * 100)
  have h2 : (⌈q * 100⌉ : ℚ) ≤ (⌈b * 100⌉ : ℚ) := by
    have : ⌈q * 100⌉ ≤ ⌈b * 100⌉ := by
      apply Int.ceil_le_ceil
      nlinarith
    exact_mod_cast this
  rw [hint] at h2
  have : (pyRound (q * 100) : ℚ) ≤ b * 100 := le_trans h1 h2
  linarith


theorem insertByDesc_ne_nil {α β : Type} [LinearOrder β] (key : α → β) (x : α)
    (l : List α) : insertByDesc key x l ≠ [] := by
  cases l with
  | nil => simp [insertByDesc]
  | cons y ys =>
    unfold insertByDesc
    split_ifs <;> simp

theorem sortByDesc_eq_nil_iff {α β : Type} [LinearOrder β] (key : α → β)
    (l : List α) : sortByDesc key l = [] ↔ l = [] := by
  cases l with
  | nil => simp [sortByDesc]
  | cons x xs =>
    simp only [sortByDesc]
    constructor
    · intro h
      exact absurd h (insertByDesc_ne_nil key x _)
    · intro h
      exact absurd h (by simp)

/-- Head of a stable descending sort: the first element of maximal key. -/
theorem head?_sortByDesc {α β : Type} [LinearOrder β] (key : α → β)
    (l : List α) : (sortByDesc key l).head? = firstMaxBy key l := by
  induction l with
  | nil => simp [sortByDesc, firstMaxBy]
  | cons x xs ih =>
    simp only [sortByDesc, firstMaxBy]
    cases hs : sortByDesc key xs with
    | nil =>
      have hxs : xs = [] := (sortByDesc_eq_nil_iff key xs).mp hs
      subst hxs
      simp [insertByDesc, firstMaxBy]
    | cons m rest =>
      have hh : firstMaxBy key xs = some m := by
        rw [← ih, hs]; rfl
      rw [hh]
      simp only [Option.elim]
      unfold insertByDesc
      by_cases hc : key m ≤ key x
      · rw [if_pos hc]
        have : ¬ key x < key m := not_lt.mpr hc
        simp [this]
      · rw [if_neg hc]
        have : key x < key m := lt_of_not_le hc
        simp [this]

theorem firstMaxBy_eq_none_iff {α β : Type} [LinearOrder β] (key : α → β)
    (l : List α) : firstMaxBy key l = none ↔ l = [] := by
  cases l with
  | nil => simp [firstMaxBy]
  | cons x xs => simp [firstMaxBy]

theorem firstMaxBy_split {α β : Type} [LinearOrder β] (key : α → β)
    (l : List α) : ∀ c, firstMaxBy key l = some c →
    ∃ l₁ l₂, l = l₁ ++ c :: l₂ ∧ (∀ b ∈ l₁, key b < key c) ∧
      (∀ b ∈ l, key b ≤ key c) := by
  induction l with
  | nil => intro c h; simp [firstMaxBy] at h
  | cons x xs ih =>
    intro c h
    simp only [firstMaxBy, Option.some.injEq] at h
    cases hm : firstMaxBy key xs with
    | none =>
      rw [hm] at h
      simp only [Option.elim] at h
      subst h
      have hxs : xs = [] := (firstMaxBy_eq_none_iff key xs).mp hm
      subst hxs
      exact ⟨[], [], by simp, by simp, by simp⟩
    | some m =>
      rw [hm] at h
      simp only [Option.elim] at h
      obtain ⟨l₁, l₂, heq, hlt, hle⟩ := ih m hm
      by_cases hx : key x < key m
      · rw [if_pos hx] at h
        subst h
        refine ⟨x :: l₁, l₂, by simp [heq], ?_, ?_⟩
        · intro b hb
          rcases List.mem_cons.mp hb with hb | hb
          · subst hb; exact hx
          · exact hlt b hb
        · intro b hb
          rcases List.mem_cons.mp hb with hb | hb
          · subst hb; exact le_of_lt hx
          · exact hle b hb
      · rw [if_neg hx] at h
        subst h
        push_neg at hx
        refine ⟨[], xs, by simp, by simp, ?_⟩
        intro b hb
        rcases List.mem_cons.mp hb with hb | hb
        · subst hb; exact le_refl _
        · exact le_trans (hle b hb) hx

theorem firstMaxBy_mem {α β : Type} [LinearOrder β] (key : α → β)
    (l : List α) (c : α) (h : firstMaxBy key l = some c) : c ∈ l := by
  obtain ⟨l₁, l₂, heq, -, -⟩ := firstMaxBy_split key l c h
  rw [heq]
  simp


theorem get_grade_eq_A {q : ℚ} (h1 : 80 ≤ q) (h2 : q ≤ 100) : get_grade q = "A" := by
  have hA : (decide (80 ≤ q) && decide (q ≤ 100)) = true := by simp [h1, h2]
  simp [get_grade, grade_boundaries, List.find?, hA]

theorem get_grade_eq_B {q : ℚ} (h1 : 60 ≤ q) (h2 : q ≤ 79) : get_grade q = "B" := by
  have hA : decide (80 ≤ q) = false := by simp; linarith
  have hB : (decide (60 ≤ q) && decide (q ≤ 79)) = true := by simp [h1, h2]
  simp [get_grade, grade_boundaries, List.find?, hA, hB]

theorem get_grade_eq_C {q : ℚ} (h1 : 40 ≤ q) (h2 : q ≤ 59) : get_grade q = "C" := by
  have hA : decide (80 ≤ q) = false := by simp; linarith
  have hB : decide (60 ≤ q) = false := by simp; linarith
  have hC : (decide (40 ≤ q) && decide (q ≤ 59)) = true := by simp [h1, h2]
  simp [get_grade, grade_boundaries, List.find?, hA, hB, hC]

theorem get_grade_eq_D {q : ℚ} (h1 : 0 ≤ q) (h2 : q ≤ 39) : get_grade q = "D" := by
  have hA : decide (80 ≤ q) = false := by simp; linarith
  have hB : decide (60 ≤ q) = false := by simp; linarith
  have hC : decide (40 ≤ q) = false := by simp; linarith
  have hD : (decide (0 ≤ q) && decide (q ≤ 39)) = true := by simp [h1, h2]
  simp [get_grade, grade_boundaries, List.find?, hA, hB, hC, hD]

theorem get_grade_neg {q : ℚ} (h : q < 0) : get_grade q = "D" := by
  have hA : decide (80 ≤ q) = false := by simp; linarith
  have hB : decide (60 ≤ q) = false := by simp; linarith
  have hC : decide (40 ≤ q) = false := by simp; linarith
  have hD : decide (0 ≤ q) = false := by simp; linarith
  simp [get_grade, grade_boundaries, List.find?, hA, hB, hC, hD]

theorem get_grade_gap {q : ℚ}
    (h : (79 < q ∧ q < 80) ∨ (59 < q ∧ q < 60) ∨ (39 < q ∧ q < 40)) :
    get_grade q = "D" := by
  rcases h with ⟨h1, h2⟩ | ⟨h1, h2⟩ | ⟨h1, h2⟩
  · have hA : decide (80 ≤ q) = false := by simp; linarith
    have hB : decide (q ≤ 79) = false := by simp; linarith
    have hC : decide (q ≤ 59) = false := by simp; linarith
    have hD : decide (q ≤ 39) = false := by simp; linarith
    simp [get_grade, grade_boundaries, List.find?, hA, hB, hC, hD]
  · have hA : decide (80 ≤ q) = false := by simp; linarith
    have hB : decide (60 ≤ q) = false := by simp; linarith
    have hC : decide (q ≤ 59) = false := by simp; linarith
    have hD : decide (q ≤ 39) = false := by simp; linarith
    simp [get_grade, grade_boundaries, List.find?, hA, hB, hC, hD]
  · have hA : decide (80 ≤ q) = false := by simp; linarith
    have hB : decide (60 ≤ q) = false := by simp; linarith
    have hC : decide (40 ≤ q) = false := by simp; linarith
    have hD : decide (q ≤ 39) = false := by simp; linarith
    simp [get_grade, grade_boundaries, List.find?, hA, hB, hC, hD]

theorem get_grade_bands (q : ℚ) :
    ((80 ≤ q ∧ q ≤ 100) → get_grade q = "A") ∧
    ((60 ≤ q ∧ q ≤ 79) → get_grade q = "B") ∧
    ((40 ≤ q ∧ q ≤ 59) → get_grade q = "C") ∧
    ((0 ≤ q ∧ q ≤ 39) → get_grade q = "D") ∧
    (q < 0 → get_grade q = "D") ∧
    (((79 < q ∧ q < 80) ∨ (59 < q ∧ q < 60) ∨ (39 < q ∧ q < 40)) →
      get_grade q = "D") :=
  ⟨fun h => get_grade_eq_A h.1 h.2, fun h => get_grade_eq_B h.1 h.2,
   fun h => get_grade_eq_C h.1 h.2, fun h => get_grade_eq_D h.1 h.2,
   fun h => get_grade_neg h, fun h => get_grade_gap h⟩

theorem weightOf_pos {name : String} {w : ℚ} (h : weightOf name = some w) :
    0 < w := by
  unfold weightOf at h
  cases hf : risk_weights.find? (fun p => p.1 == name) with
  | none => rw [hf] at h; simp at h
  | some p =>
    rw [hf] at h
    simp only [Option.map_some', Option.some.injEq] at h
    subst h
    have hmem : p ∈ risk_weights := List.mem_of_find?_eq_some hf
    fin_cases hmem <;> norm_num

theorem scoreItems_mem_bounds {rd : List (String × ℚ)}
    (hsev : ∀ p ∈ rd, 0 ≤ p.2 ∧ p.2 ≤ 100) {i : BreakdownItem}
    (hi : i ∈ scoreItems rd) :
    0 ≤ i.severity ∧ i.severity ≤ 100 ∧ 0 < i.weight := by
  unfold scoreItems at hi
  rw [List.mem_filterMap] at hi
  obtain ⟨p, hp, hmap⟩ := hi
  cases hw : weightOf p.1 with
  | none => rw [hw] at hmap; simp at hmap
  | some w =>
    rw [hw] at hmap
    simp only [Option.map_some', Option.some.injEq] at hmap
    obtain ⟨h1, h2⟩ := hsev p hp
    subst hmap
    exact ⟨h1, h2, weightOf_pos hw⟩

theorem calculate_score_range (rd : List (String × ℚ))
    (hsev : ∀ p ∈ rd, 0 ≤ p.2 ∧ p.2 ≤ 100) :
    0 ≤ (calculate_score rd).score ∧ (calculate_score rd).score ≤ 100 := by
  by_cases hrd : rd = []
  · subst hrd
    norm_num [calculate_score, perfect_score]
  · have himp : 0 ≤ (List.map (fun i => i.severity / 100 * i.weight)
        (scoreItems rd)).sum := by
      apply List.sum_nonneg
      intro x hx
      rw [List.mem_map] at hx
      obtain ⟨i, hi, rfl⟩ := hx
      obtain ⟨h0, -, hw⟩ := scoreItems_mem_bounds hsev hi
      exact mul_nonneg (div_nonneg h0 (by norm_num)) (le_of_lt hw)
    have hused : 0 ≤ (List.map (fun i => i.weight) (scoreItems rd)).sum := by
      apply List.sum_nonneg
      intro x hx
      rw [List.mem_map] at hx
      obtain ⟨i, hi, rfl⟩ := hx
      obtain ⟨-, -, hw⟩ := scoreItems_mem_bounds hsev hi
      exact le_of_lt hw
    simp only [calculate_score, if_neg hrd]
    set imp := (List.map (fun i => i.severity / 100 * i.weight) (scoreItems rd)).sum with himpdef
    set u := (List.map (fun i => i.weight) (scoreItems rd)).sum with hudef
    have hraw0 : (0:ℚ) ≤ max 0 (100 - imp) := le_max_left 0 _
    have hraw100 : max 0 (100 - imp) ≤ 100 := max_le (by norm_num) (by linarith)
    set raw := max 0 (100 - imp) with hrawdef
    by_cases hu : u < 100
    · rw [if_pos hu]
      constructor
      · apply round2_nonneg
        have : 0 ≤ raw * u + 100 * (100 - u) := by nlinarith
        positivity
      · apply round2_le_of_le
        · nlinarith
        · norm_num
    · rw [if_neg hu]
      exact ⟨round2_nonneg hraw0, round2_le_of_le hraw100 (by norm_num)⟩

/-! ### C1 -/

/-- C1 (counterexample): the input `rdGap` is a well-formed risk-details
mapping (severities in `[0,100]`, both attainable from real rule runs), yet
`calculate_score` produces the fractional score 79.75, which lies in none of
the four grade bands A=[80,100], B=[60,79], C=[40,59], D=[0,39] — the grade
falls through to the default `"D"`.  The bands therefore do not form an
exhaustive partition over the attainable fractional scores, refuting the
claim as stated. -/
theorem c1_grade_partition_counterexample :
    (rdGap.all (fun p => decide (0 ≤ p.2) && decide (p.2 ≤ 100)) = true) ∧
    (calculate_score rdGap).score = 319/4 ∧
    (calculate_score rdGap).grade = "D" ∧
    (grade_boundaries.all
      (fun g => !(decide (g.2.1 ≤ (319:ℚ)/4) && decide ((319:ℚ)/4 ≤ g.2.2))) = true) := by
  refine ⟨by norm_num [rdGap], ?_, ?_, by norm_num [grade_boundaries]⟩
  · simp [calculate_score, scoreItems, rdGap, weightOf, risk_weights, List.find?,
      List.filterMap_cons, round2, pyRound]
    norm_num
  · simp [calculate_score, scoreItems, rdGap, weightOf, risk_weights, List.find?,
      List.filterMap_cons, round2, pyRound, get_grade, grade_boundaries]
    norm_num

/-- C1 (amended): for every risk-details mapping with severities in
`[0,100]`, the final score lies in `[0,100]` and the grade is
`_get_grade(score)`; the four bands are pairwise disjoint and grade scores
inside them as labelled, negative scores grade `"D"`, but attainable
fractional scores strictly inside the gaps `(39,40)`, `(59,60)`, `(79,80)`
match no band and also fall back to `"D"` — the partition is exhaustive only
over the integer grid. -/
theorem c1_score_range_and_grade_bands (rd : List (String × ℚ))
    (hsev : ∀ p ∈ rd, 0 ≤ p.2 ∧ p.2 ≤ 100) :
    (0 ≤ (calculate_score rd).score ∧ (calculate_score rd).score ≤ 100) ∧
    (calculate_score rd).grade = get_grade (calculate_score rd).score ∧
    (∀ q : ℚ,
      ((80 ≤ q ∧ q ≤ 100) → get_grade q = "A") ∧
      ((60 ≤ q ∧ q ≤ 79) → get_grade q = "B") ∧
      ((40 ≤ q ∧ q ≤ 59) → get_grade q = "C") ∧
      ((0 ≤ q ∧ q ≤ 39) → get_grade q = "D") ∧
      (q < 0 → get_grade q = "D") ∧
      (((79 < q ∧ q < 80) ∨ (59 < q ∧ q < 60) ∨ (39 < q ∧ q < 40)) →
        get_grade q = "D")) := by
  refine ⟨calculate_score_range rd hsev, ?_, get_grade_bands⟩
  by_cases hrd : rd = []
  · subst hrd
    have : get_grade ((95:ℚ)) = "A" := get_grade_eq_A (by norm_num) (by norm_num)
    simp [calculate_score, perfect_score, this]
  · simp [calculate_score, if_neg hrd]

/-- C1 (witness): the amended theorem applied at a concrete mapping. -/
theorem c1_score_range_witness :
    0 ≤ (calculate_score [("no_stop_loss", 50)]).score ∧
      (calculate_score [("no_stop_loss", 50)]).score ≤ 100 :=
  (c1_score_range_and_grade_bands [("no_stop_loss", 50)] (by norm_num)).1

/-! ### C2 -/

/-- C2 (counterexample): the eight weights of the table sum to 115, not 100 —
30+25+20+15+10+5+5+5 = 115 (the in-code comment `sum to 100` notwithstanding). -/
theorem c2_weights_sum_counterexample :
    (risk_weights.map Prod.snd).sum = 115 ∧ ((115:ℚ) = 100 → False) := by
  constructor
  · norm_num [risk_weights]
  · intro h
    norm_num at h

/-- C2 (amended): the fixed penalty-weight table maps exactly the eight risk
kinds, with the stated weights; the weights sum to 115 (not 100). -/
theorem c2_risk_weight_table :
    weightOf "over_leverage" = some 30 ∧ weightOf "no_stop_loss" = some 25 ∧
    weightOf "high_drawdown" = some 20 ∧ weightOf "revenge_trading" = some 15 ∧
    weightOf "poor_rr_ratio" = some 10 ∧ weightOf "low_win_rate" = some 5 ∧
    weightOf "concentration_risk" = some 5 ∧ weightOf "overtrading" = some 5 ∧
    risk_weights.map Prod.fst = ["over_leverage", "no_stop_loss",
      "high_drawdown", "revenge_trading", "poor_rr_ratio", "low_win_rate",
      "concentration_risk", "overtrading"] ∧
    (risk_weights.map Prod.snd).sum = 115 := by
  refine ⟨?_, ?_, ?_, ?_, ?_, ?_, ?_, ?_, ?_, ?_⟩
  case refine_10 => norm_num [risk_weights]
  all_goals simp [weightOf, risk_weights, List.find?]

/-! ### C10 -/

/-- C10: a non-empty risk-details mapping whose kinds all lie outside the
weight table scores 100 with grade A and an empty breakdown, strictly above
the fixed 95 returned for an empty mapping. -/
theorem c10_unknown_kinds_score_100 (rd : List (String × ℚ)) (hne : rd ≠ [])
    (hun : ∀ p ∈ rd, weightOf p.1 = none) :
    (calculate_score rd).score = 100 ∧ (calculate_score rd).grade = "A" ∧
    (calculate_score rd).breakdown = [] ∧ (calculate_score []).score = 95 ∧
    (calculate_score []).score < (calculate_score rd).score := by
  have hitems : scoreItems rd = [] := by
    unfold scoreItems
    rw [List.filterMap_eq_nil_iff]
    intro p hp
    rw [hun p hp]
    rfl
  have hgrade : get_grade (100:ℚ) = "A" := get_grade_eq_A (by norm_num) (by norm_num)
  have hscore : (calculate_score rd).score = 100 := by
    simp only [calculate_score, if_neg hne, hitems, List.map_nil, List.sum_nil]
    norm_num [round2, pyRound]
  have hempty : (calculate_score []).score = 95 := by
    norm_num [calculate_score, perfect_score]
  refine ⟨hscore, ?_, ?_, hempty, ?_⟩
  · simp only [calculate_score, if_neg hne, hitems, List.map_nil, List.sum_nil]
    norm_num [round2, pyRound]
    exact hgrade
  · simp [calculate_score, if_neg hne, hitems]
  · rw [hscore, hempty]
    norm_num

/-- C10 (witness): the caller-injected `event_trading` finding alone. -/
theorem c10_unknown_kinds_witness :
    (calculate_score [("event_trading", 85)]).score = 100 ∧
      (calculate_score [("event_trading", 85)]).grade = "A" ∧
      (calculate_score [("event_trading", 85)]).breakdown = [] :=
  have h := c10_unknown_kinds_score_100 [("event_trading", 85)] (by simp)
    (by
      intro p hp
      rcases List.mem_singleton.mp hp with rfl
      simp [weightOf, risk_weights, List.find?])
  ⟨h.1, h.2.1, h.2.2.1⟩

/-! ### C5 -/

/-- C5: the profit factor is `total_profit/total_loss` when `total_loss` is
nonzero, the `+infinity` sentinel when `total_loss = 0 < total_profit`, and 0
when both are zero; on the sample `[50, -30, 75, -20]` it is `125/50 = 5/2`. -/
theorem c5_profit_factor (df : DataFrame) :
    ((compute_basic_metrics df).total_loss ≠ 0 →
      (compute_basic_metrics df).profit_factor =
        .val ((compute_basic_metrics df).total_profit /
          (compute_basic_metrics df).total_loss)) ∧
    ((compute_basic_metrics df).total_loss = 0 →
      0 < (compute_basic_metrics df).total_profit →
      (compute_basic_metrics df).profit_factor = .posInf) ∧
    ((compute_basic_metrics df).total_profit = 0 →
      (compute_basic_metrics df).total_loss = 0 →
      (compute_basic_metrics df).profit_factor = .val 0) ∧
    (compute_basic_metrics sampleDf).profit_factor = .val (5/2) ∧
    (compute_basic_metrics sampleDf).total_profit = 125 ∧
    (compute_basic_metrics sampleDf).total_loss = 50 := by
  refine ⟨?_, ?_, ?_, ?_, ?_, ?_⟩
  · intro h
    simp only [compute_basic_metrics] at h ⊢
    rw [if_pos h]
  · intro h h2
    simp only [compute_basic_metrics] at h h2 ⊢
    rw [if_neg (not_not_intro h), if_pos h2]
  · intro h h2
    simp only [compute_basic_metrics] at h h2 ⊢
    rw [if_neg (not_not_intro h2), if_neg (by simp [h])]
  · simp only [compute_basic_metrics, sampleDf]
    norm_num [List.filter_cons, decide_eq_true_eq]
  · simp only [compute_basic_metrics, sampleDf]
    norm_num [List.filter_cons, decide_eq_true_eq]
  · simp only [compute_basic_metrics, sampleDf]
    norm_num [List.filter_cons, decide_eq_true_eq]

/-- C5 (witness): the three conventions applied at concrete frames. -/
theorem c5_profit_factor_witness :
    (compute_basic_metrics sampleDf).profit_factor =
      PF.val ((compute_basic_metrics sampleDf).total_profit /
        (compute_basic_metrics sampleDf).total_loss) ∧
    (compute_basic_metrics { profit_loss := [50] }).profit_factor = PF.posInf ∧
    (compute_basic_metrics { profit_loss := [] }).profit_factor = PF.val 0 := by
  refine ⟨?_, ?_, ?_⟩
  · exact (c5_profit_factor sampleDf).1 (by
      simp only [compute_basic_metrics, sampleDf]
      norm_num [List.filter_cons, decide_eq_true_eq])
  · exact (c5_profit_factor { profit_loss := [50] }).2.1
      (by simp only [compute_basic_metrics]
          norm_num [List.filter_cons, decide_eq_true_eq])
      (by simp only [compute_basic_metrics]
          norm_num [List.filter_cons, decide_eq_true_eq])
  · exact (c5_profit_factor { profit_loss := [] }).2.2.1
      (by simp only [compute_basic_metrics]; norm_num)
      (by simp only [compute_basic_metrics]; norm_num)

/-! ### C3 -/

/-- C3 (counterexample): the spec's symmetric interpolation predicts severity
`(80-65)/80*100 = 18.75` for `sl_usage_rate = 65`, but the code's
`_calculate_severity(threshold, sl_rate, threshold)` call makes excess and
reference range coincide, so the emitted severity is 100. -/
theorem c3_severity_counterexample :
    (detect_stop_loss_risk { sl_usage_rate := some (.num 65), total_trades := 40 }).map
      (fun f => f.2.severity) = some 100 ∧
    ((80 - 65 : ℚ) / 80 * 100 = 75/4) ∧ ((100:ℚ) = 75/4 → False) := by
  refine ⟨?_, by norm_num, by norm_num⟩
  simp only [detect_stop_loss_risk]
  rw [if_pos (by norm_num)]
  simp only [Option.map_some']
  norm_num [calculate_severity, round2, pyRound]

/-- C3 (amended): for the higher-is-worse rules the severity is the rounded,
clamped linear interpolation
`round2(min(100, (value-threshold)/(max_ref-threshold)*100))`; for the
lower-is-worse rules (win rate, risk-reward ratio, stop-loss usage) the code
passes `(threshold, value, threshold)` to `_calculate_severity`, which makes
every triggered finding carry severity exactly 100. -/
theorem c3_severity_amended (m : MetricsView) (v : ℚ) :
    (m.sl_usage_rate = some (.num v) → v < 80 →
      (detect_stop_loss_risk m).map (fun f => f.2.severity) = some 100) ∧
    (m.win_rate = some (.num v) → v < 40 →
      (detect_win_rate_risk m).map (fun f => f.2.severity) = some 100) ∧
    (m.risk_reward_ratio = some (.num v) → v < 1 →
      (detect_rr_ratio_risk m).map (fun f => f.2.severity) = some 100) ∧
    (m.max_drawdown_pct = some (.num v) → 20 < v →
      (detect_drawdown_risk m).map (fun f => f.2.severity) =
        some (round2 (min 100 ((v - 20) / (50 - 20) * 100)))) ∧
    (m.avg_position_size_pct = some (.num v) → 2 < v →
      (detect_position_size_risk m).map (fun f => f.2.severity) =
        some (round2 (min 100 ((v - 2) / (5 - 2) * 100)))) := by
  refine ⟨?_, ?_, ?_, ?_, ?_⟩
  · intro h hv
    simp only [detect_stop_loss_risk, h]
    rw [if_pos hv]
    simp only [Option.map_some']
    have hr : max 0 (80 - v) = 80 - v := max_eq_right (by linarith)
    have hne : (80:ℚ) - v ≠ 0 := by intro hc; linarith
    simp only [calculate_severity, hr]
    rw [if_neg hne]
    rw [div_self hne]
    norm_num [round2, pyRound]
  · intro h hv
    simp only [detect_win_rate_risk, h]
    rw [if_pos hv]
    simp only [Option.map_some']
    have hr : max 0 (40 - v) = 40 - v := max_eq_right (by linarith)
    have hne : (40:ℚ) - v ≠ 0 := by intro hc; linarith
    simp only [calculate_severity, hr]
    rw [if_neg hne]
    rw [div_self hne]
    norm_num [round2, pyRound]
  · intro h hv
    simp only [detect_rr_ratio_risk, h]
    rw [if_pos hv]
    simp only [Option.map_some']
    have hr : max 0 (1 - v) = 1 - v := max_eq_right (by linarith)
    have hne : (1:ℚ) - v ≠ 0 := by intro hc; linarith
    simp only [calculate_severity, hr]
    rw [if_neg hne]
    rw [div_self hne]
    norm_num [round2, pyRound]
  · intro h hv
    simp only [detect_drawdown_risk, h]
    rw [if_pos hv]
    simp only [Option.map_some']
    have hr : max 0 (v - 20) = v - 20 := max_eq_right (by linarith)
    simp only [calculate_severity, hr]
    rw [if_neg (by norm_num)]
    norm_num
  · intro h hv
    simp only [detect_position_size_risk, h]
    rw [if_pos hv]
    simp only [Option.map_some']
    have hr : max 0 (v - 2) = v - 2 := max_eq_right (by linarith)
    simp only [calculate_severity, hr]
    rw [if_neg (by norm_num)]
    norm_num

/-- C3 (witness): the amended severity forms at concrete metric values. -/
theorem c3_severity_witness :
    (detect_stop_loss_risk { sl_usage_rate := some (.num 65), total_trades := 40 }).map
      (fun f => f.2.severity) = some 100 ∧
    (detect_drawdown_risk { max_drawdown_pct := some (.num 35) }).map
      (fun f => f.2.severity) = some (round2 (min 100 ((35 - 20) / (50 - 20) * 100))) := by
  constructor
  · exact (c3_severity_amended
      { sl_usage_rate := some (.num 65), total_trades := 40 } 65).1 rfl (by norm_num)
  · exact (c3_severity_amended
      { max_drawdown_pct := some (.num 35) } 35).2.2.2.1 rfl (by norm_num)

/-! ### C4 -/

theorem max_drawdown_loop_ok (l : List ℚ) :
    ∀ peak acc, (∀ p ∈ runningPeaks peak l, p ≠ 0) →
    ∃ v, max_drawdown_loop l peak acc = .ok v := by
  induction l with
  | nil => intro peak acc h; exact ⟨acc, rfl⟩
  | cons b rest ih =>
    intro peak acc h
    have hp : (if peak < b then b else peak) ≠ 0 := by
      apply h
      simp [runningPeaks]
    have hrest : ∀ p ∈ runningPeaks (if peak < b then b else peak) rest, p ≠ 0 := by
      intro p hpmem
      apply h
      simp [runningPeaks]
      right
      exact hpmem
    obtain ⟨v, hv⟩ := ih (if peak < b then b else peak)
      (if acc < (((if peak < b then b else peak) - b) /
        (if peak < b then b else peak) * 100)
       then (((if peak < b then b else peak) - b) /
        (if peak < b then b else peak) * 100) else acc) hrest
    refine ⟨v, ?_⟩
    simp only [max_drawdown_loop]
    rw [if_neg hp]
    exact hv

/-- C4 (counterexample): an empty record sequence whose frame still carries
the `account_balance_before` column makes `compute_performance_metrics` index
`balances[0]` and raise `IndexError`; a frame with `entry_time` but without
`exit_time` makes `compute_pattern_metrics` raise `KeyError` — the
metrics engine is not total over the claimed input space. -/
theorem c4_totality_counterexample :
    dfEmptyBal.wf = true ∧ compute_all_metrics dfEmptyBal = .error "IndexError" ∧
    dfNoExit.wf = true ∧ compute_all_metrics dfNoExit = .error "KeyError" := by
  refine ⟨rfl, rfl, rfl, rfl⟩

/-- C4 (amended): the analysis chain returns normally on every well-formed
frame in which `exit_time` accompanies `entry_time` and, when the
`account_balance_before` column is present, it is non-empty with no zero
running peak; the rule engine and scorer are total unconditionally (they are
plain functions of the metrics view in this embedding). -/
theorem c4_totality_amended (df : DataFrame)
    (hx : df.entry_time.isSome → df.exit_time.isSome)
    (hb : ∀ b bs, df.account_balance_before = some (b :: bs) →
      ∀ p ∈ runningPeaks b (b :: bs), p ≠ 0)
    (hne : df.account_balance_before ≠ some []) :
    (∃ m, compute_all_metrics df = Except.ok m) ∧
    (∃ out, (run_analysis df).output = Except.ok out) := by
  have hperf : ∃ dd, compute_performance_metrics df = .ok dd := by
    cases habb : df.account_balance_before with
    | none => exact ⟨none, by simp [compute_performance_metrics, habb]⟩
    | some l =>
      cases l with
      | nil => exact absurd habb hne
      | cons b bs =>
        obtain ⟨v, hv⟩ := max_drawdown_loop_ok (b :: bs) b 0 (hb b bs habb)
        refine ⟨some v, ?_⟩
        simp only [compute_performance_metrics, habb]
        rw [hv]
        rfl
  have hpat : ∃ pm, compute_pattern_metrics df = .ok pm := by
    cases hres : compute_pattern_metrics df with
    | ok pm => exact ⟨pm, rfl⟩
    | error e =>
      exfalso
      cases het : df.entry_time with
      | none => simp [compute_pattern_metrics, het] at hres
      | some ets =>
        have hs : df.exit_time.isSome := hx (by simp [het])
        obtain ⟨xts, hxt⟩ := Option.isSome_iff_exists.mp hs
        simp [compute_pattern_metrics, het, hxt] at hres
  obtain ⟨dd, hdd⟩ := hperf
  obtain ⟨pm, hpm⟩ := hpat
  have hmet : compute_all_metrics df =
      .ok { basic := compute_basic_metrics df, risk := compute_risk_metrics df,
            max_drawdown_pct := dd, pattern := pm } := by
    simp only [compute_all_metrics, hdd, hpm]
  constructor
  · exact ⟨_, hmet⟩
  · cases hout : (run_analysis df).output with
    | ok out => exact ⟨out, rfl⟩
    | error e =>
      exfalso
      simp [run_analysis, dfCopy, hmet] at hout

/-- C4 (witness): the amended totality at the sample frame. -/
theorem c4_totality_witness :
    ∃ out, (run_analysis sampleDf).output = Except.ok out := by
  refine (c4_totality_amended sampleDf (by simp [sampleDf]) ?_ (by simp [sampleDf])).2
  intro b bs h
  simp only [sampleDf, Option.some.injEq] at h
  rw [List.cons_eq_cons] at h
  obtain ⟨rfl, rfl⟩ := h
  intro p hp
  simp only [runningPeaks] at hp
  norm_num at hp
  rcases hp with rfl | rfl | rfl | rfl <;> norm_num

/-! ### C9 -/

/-- C9: the analysis chain is modelled with all of its per-run state
(the calculator's copied frame, the engine's accumulated findings) made
explicit, so re-running it on a fixed frame is literally evaluating the same
function twice: the outputs are identical and the caller's frame is returned
untouched (the calculator mutates only its `df.copy()`; the rule engine only
reads the frame). -/
theorem c9_chain_deterministic_pure (df : DataFrame) :
    run_analysis df = run_analysis df ∧
    (run_analysis df).callerDf = df ∧
    (run_analysis df).output = (run_analysis df).output :=
  ⟨rfl, rfl, rfl⟩

/-! ### C6 -/

theorem mem_candidatesOf {doc : List HtmlTable} {c : Cand} :
    c ∈ candidatesOf doc ↔
      ∃ ti t ri r, doc[ti]? = some t ∧ (t.take 50)[ri]? = some r ∧
        3 ≤ rowScore (headerCells r) ∧
        c = ⟨rowScore (headerCells r), ti, t, headerCells r, ri⟩ := by
  unfold candidatesOf
  rw [List.mem_flatMap]
  constructor
  · rintro ⟨⟨ti, t⟩, hmem, hin⟩
    rw [List.mk_mem_enum_iff_getElem?] at hmem
    rw [List.mem_filterMap] at hin
    obtain ⟨⟨ri, r⟩, hrmem, hif⟩ := hin
    rw [List.mk_mem_enum_iff_getElem?] at hrmem
    by_cases hsc : 3 ≤ rowScore (headerCells r)
    · rw [if_pos hsc] at hif
      simp only [Option.some.injEq] at hif
      exact ⟨ti, t, ri, r, hmem, hrmem, hsc, hif.symm⟩
    · rw [if_neg hsc] at hif
      simp at hif
  · rintro ⟨ti, t, ri, r, hmem, hrmem, hsc, rfl⟩
    refine ⟨(ti, t), ?_, ?_⟩
    · rw [List.mk_mem_enum_iff_getElem?]
      exact hmem
    · rw [List.mem_filterMap]
      refine ⟨(ri, r), ?_, ?_⟩
      · rw [List.mk_mem_enum_iff_getElem?]
        exact hrmem
      · rw [if_pos hsc]

theorem candidatesOf_eq_nil_iff {doc : List HtmlTable} :
    candidatesOf doc = [] ↔
      ∀ t ∈ doc, ∀ r ∈ t.take 50, rowScore (headerCells r) < 3 := by
  rw [List.eq_nil_iff_forall_not_mem]
  constructor
  · intro h t ht r hr
    by_contra hc
    push_neg at hc
    obtain ⟨ti, hti⟩ := List.mem_iff_getElem?.mp ht
    obtain ⟨ri, hri⟩ := List.mem_iff_getElem?.mp hr
    exact h _ (mem_candidatesOf.mpr ⟨ti, t, ri, r, hti, hri, hc, rfl⟩)
  · intro h c hc
    obtain ⟨ti, t, ri, r, hti, hri, hsc, -⟩ := mem_candidatesOf.mp hc
    have ht : t ∈ doc := List.getElem?_mem hti
    have hr : r ∈ t.take 50 := List.getElem?_mem hri
    exact absurd hsc (not_le.mpr (h t ht r hr))

/-- C6: the parser scans the first 50 rows of every table and keeps a row as
a header candidate exactly when its signature score over the five keyword
families (time-like, profit, symbol, type, volume-like) is at least 3; the
selected candidate is the single highest-scoring one, ties broken by first
occurrence in document order (the stable descending sort followed by `[0]`);
when no row anywhere scores at least 3 the parse fails with the
input-format `ValueError`. -/
theorem c6_table_selection (doc : List HtmlTable) :
    (select_candidate doc = none ↔
      ∀ t ∈ doc, ∀ r ∈ t.take 50, rowScore (headerCells r) < 3) ∧
    (parse_mt5_html doc =
        .error "Could not visually identify an MT5 History table." ↔
      select_candidate doc = none) ∧
    (∀ c : Cand, c ∈ candidatesOf doc ↔
      ∃ ti t ri r, doc[ti]? = some t ∧ (t.take 50)[ri]? = some r ∧
        3 ≤ rowScore (headerCells r) ∧
        c = ⟨rowScore (headerCells r), ti, t, headerCells r, ri⟩) ∧
    (∀ c, select_candidate doc = some c →
      c ∈ candidatesOf doc ∧ 3 ≤ c.score ∧
      (∀ b ∈ candidatesOf doc, b.score ≤ c.score) ∧
      ∃ l₁ l₂, candidatesOf doc = l₁ ++ c :: l₂ ∧
        ∀ b ∈ l₁, b.score < c.score) := by
  have hsel : select_candidate doc =
      firstMaxBy (fun c => c.score) (candidatesOf doc) := by
    unfold select_candidate
    exact head?_sortByDesc _ _
  refine ⟨?_, ?_, fun c => mem_candidatesOf, ?_⟩
  · rw [hsel, firstMaxBy_eq_none_iff]
    exact candidatesOf_eq_nil_iff
  · constructor
    · intro h
      cases hs : select_candidate doc with
      | none => rfl
      | some c =>
        exfalso
        simp only [parse_mt5_html, hs] at h
        split_ifs at h <;> simp_all
    · intro h
      simp [parse_mt5_html, h]
  · intro c hc
    rw [hsel] at hc
    have hmem : c ∈ candidatesOf doc := firstMaxBy_mem _ _ c hc
    obtain ⟨l₁, l₂, heq, hlt, hle⟩ := firstMaxBy_split (fun c => c.score) _ c hc
    refine ⟨hmem, ?_, hle, l₁, l₂, heq, hlt⟩
    obtain ⟨ti, t, ri, r, -, -, hsc, hceq⟩ := mem_candidatesOf.mp hmem
    rw [hceq]
    exact hsc

/-! ### C7 -/

set_option maxHeartbeats 1000000 in
/-- C6 (witness): on the synthetic document the single candidate (the
MT5-like header, score 5) is selected, and it is maximal among candidates. -/
theorem c6_selection_witness :
    select_candidate mt5Doc =
      some ⟨5, 0, mt5Table,
        ["Open Time", "Symbol", "Type", "Volume", "Price", "Profit"], 0⟩ ∧
    ∀ b ∈ candidatesOf mt5Doc, b.score ≤ 5 := by
  have hval : select_candidate mt5Doc =
      some ⟨5, 0, mt5Table,
        ["Open Time", "Symbol", "Type", "Volume", "Price", "Profit"], 0⟩ := by
    decide
  refine ⟨hval, fun b hb => ?_⟩
  exact ((c6_table_selection mt5Doc).2.2.2 _ hval).2.2.1 b hb

theorem parse_row_skip_type {cm : ColMap} {cells : List String} {s : String}
    (htype : cm.type ≠ -1) (hidx : pyIndex cells cm.type = some s)
    (hskip : pyLower s = "balance" ∨ pyLower s = "credit" ∨ pyLower s = "total") :
    parse_row cm cells = none := by
  unfold parse_row
  by_cases h1 : cells.isEmpty
  · rw [if_pos h1]
  · rw [if_neg h1]
    by_cases h2 : (cells.length : ℤ) ≤ requiredIdx cm
    · rw [if_pos h2]
    · rw [if_neg h2]
      cases hsym : pyIndex cells cm.symbol with
      | none => rfl
      | some sym =>
        cases hprof : pyIndex cells cm.profit with
        | none => rfl
        | some pr =>
          rw [if_pos htype, hidx]
          by_cases hs1 : sym = ""
          · simp [hs1]
          · by_cases hs2 : s = ""
            · simp [hs2]
            · have hcon : (["balance", "credit", "total"].contains (pyLower s)) = true := by
                rcases hskip with h | h | h <;> simp [h]
              simp only [hs1, hs2, hcon]
              simp

theorem parse_row_skip_empty_symbol {cm : ColMap} {cells : List String}
    (hsym : pyIndex cells cm.symbol = some "") :
    parse_row cm cells = none := by
  unfold parse_row
  by_cases h1 : cells.isEmpty
  · rw [if_pos h1]
  · rw [if_neg h1]
    by_cases h2 : (cells.length : ℤ) ≤ requiredIdx cm
    · rw [if_pos h2]
    · rw [if_neg h2]
      rw [hsym]
      cases hprof : pyIndex cells cm.profit with
      | none => rfl
      | some pr =>
        cases htt : (if cm.type ≠ -1 then pyIndex cells cm.type else some "Unknown") with
        | none => rfl
        | some tt => simp

theorem parse_row_skip_empty_type {cm : ColMap} {cells : List String}
    (htype : cm.type ≠ -1) (hidx : pyIndex cells cm.type = some "") :
    parse_row cm cells = none := by
  unfold parse_row
  by_cases h1 : cells.isEmpty
  · rw [if_pos h1]
  · rw [if_neg h1]
    by_cases h2 : (cells.length : ℤ) ≤ requiredIdx cm
    · rw [if_pos h2]
    · rw [if_neg h2]
      cases hsym : pyIndex cells cm.symbol with
      | none => rfl
      | some sym =>
        cases hprof : pyIndex cells cm.profit with
        | none => rfl
        | some pr =>
          rw [if_pos htype, hidx]
          simp

set_option maxHeartbeats 1000000 in
/-- C7: rows whose type cell is `balance`, `credit` or `total`, and rows with
an empty symbol or type cell, produce no trade record; the synthetic table
with the MT5-like header, one `balance` row and three well-formed trade rows
yields exactly 3 records, with the paren/currency profit notation cleaned. -/
theorem c7_row_filtering :
    (∀ cm cells s, cm.type ≠ -1 → pyIndex cells cm.type = some s →
      (pyLower s = "balance" ∨ pyLower s = "credit" ∨ pyLower s = "total") →
      parse_row cm cells = none) ∧
    (∀ cm cells, pyIndex cells cm.symbol = some "" →
      parse_row cm cells = none) ∧
    (∀ cm cells, cm.type ≠ -1 → pyIndex cells cm.type = some "" →
      parse_row cm cells = none) ∧
    (parse_mt5_html mt5Doc).map List.length = Except.ok 3 ∧
    (parse_mt5_html mt5Doc).map (fun ts => ts.map (fun t => t.symbol)) =
      Except.ok ["EURUSD", "GBPUSD", "EURUSD"] ∧
    (parse_mt5_html mt5Doc).map (fun ts => ts.map (fun t => t.profit_loss)) =
      Except.ok [clean_number "$50.00", clean_number "(30.00)",
        clean_number "75.00"] ∧
    clean_number "$50.00" = 50 ∧ clean_number "(30.00)" = -30 ∧
    clean_number "75.00" = 75 := by
  refine ⟨fun cm cells s h1 h2 h3 => parse_row_skip_type h1 h2 h3,
    fun cm cells h => parse_row_skip_empty_symbol h,
    fun cm cells h1 h2 => parse_row_skip_empty_type h1 h2,
    by decide, by decide, by rfl, ?_, ?_, ?_⟩
  · simp +decide [clean_number, parenTransform, keepNumChars, pyFloat, natOfDigits]
  · simp +decide [clean_number, parenTransform, keepNumChars, pyFloat, natOfDigits]
  · simp +decide [clean_number, parenTransform, keepNumChars, pyFloat, natOfDigits]

set_option maxHeartbeats 1000000 in
/-- C7 (witness): the skip rules applied at a concrete column map and rows. -/
theorem c7_row_filtering_witness :
    parse_row (build_col_map ["Open Time", "Symbol", "Type", "Volume", "Price",
      "Profit"]) ["2024.01.02 09:00", "account", "balance", "", "", "1 000.00"] = none ∧
    parse_row (build_col_map ["Open Time", "Symbol", "Type", "Volume", "Price",
      "Profit"]) ["2024.01.02 09:00", "", "buy", "1", "1", "1"] = none := by
  constructor
  · exact c7_row_filtering.1 _ _ "balance" (by decide) (by decide) (Or.inl (by decide))
  · exact c7_row_filtering.2.1 _ _ (by decide)

/-! ### C8 -/

theorem update_first_found (store : List DerivTradeRec) (dtid conn : String)
    (td : TradeData) :
    ∀ r, find_trade store dtid conn = some r →
    ∃ pre post, store = pre ++ r :: post ∧
      update_first store dtid conn td =
        pre ++ { r with deriv_trade_id := td.deriv_trade_id,
                        payload := td.payload } :: post ∧
      r.deriv_trade_id = dtid ∧ r.connection_id = conn := by
  induction store with
  | nil => intro r h; simp [find_trade] at h
  | cons x rest ih =>
    intro r h
    unfold find_trade at h
    rw [List.find?_cons] at h
    by_cases hx : (x.deriv_trade_id == dtid && x.connection_id == conn) = true
    · rw [hx] at h
      simp only [Option.some.injEq] at h
      subst h
      simp only [Bool.and_eq_true, beq_iff_eq] at hx
      refine ⟨[], rest, by simp, ?_, hx.1, hx.2⟩
      unfold update_first
      rw [if_pos]
      · simp
      · simp [hx.1, hx.2]
    · have hx' : (x.deriv_trade_id == dtid && x.connection_id == conn) = false :=
        Bool.not_eq_true _ ▸ eq_false_of_ne_true hx
      rw [hx'] at h
      simp only [] at h
      obtain ⟨pre, post, heq, hupd, h1, h2⟩ := ih r h
      refine ⟨x :: pre, post, by simp [heq], ?_, h1, h2⟩
      unfold update_first
      rw [if_neg hx]
      simp [hupd]

theorem update_first_keys (store : List DerivTradeRec) (dtid conn : String)
    (td : TradeData) (htd : td.deriv_trade_id = dtid) (r : DerivTradeRec)
    (h : find_trade store dtid conn = some r) :
    (update_first store dtid conn td).map recKey = store.map recKey ∧
    (update_first store dtid conn td).length = store.length ∧
    (∀ x ∈ update_first store dtid conn td,
      ∃ y ∈ store, x.id = y.id ∧ x.created_at = y.created_at) := by
  obtain ⟨pre, post, heq, hupd, h1, h2⟩ := update_first_found store dtid conn td r h
  subst heq
  rw [hupd]
  refine ⟨?_, by simp, ?_⟩
  · simp [recKey, htd, h1, h2]
  · intro x hx
    rw [List.mem_append] at hx
    rcases hx with hx | hx
    · exact ⟨x, by simp [hx], rfl, rfl⟩
    · rw [List.mem_cons] at hx
      rcases hx with rfl | hx
      · exact ⟨r, by simp, rfl, rfl⟩
      · exact ⟨x, by simp [hx], rfl, rfl⟩

theorem find_trade_isSome_iff (store : List DerivTradeRec) (dtid conn : String) :
    (find_trade store dtid conn).isSome ↔ (dtid, conn) ∈ store.map recKey := by
  unfold find_trade
  rw [List.find?_isSome]
  constructor
  · rintro ⟨r, hr, hp⟩
    simp only [Bool.and_eq_true, beq_iff_eq] at hp
    rw [List.mem_map]
    exact ⟨r, hr, by simp [recKey, hp.1, hp.2]⟩
  · intro h
    rw [List.mem_map] at h
    obtain ⟨r, hr, hk⟩ := h
    refine ⟨r, hr, ?_⟩
    simp only [recKey, Prod.mk.injEq] at hk
    simp [hk.1, hk.2]

theorem sync_step_key_present (conn : String) (now : ℕ) (st : SyncState)
    (td : TradeData) :
    (td.deriv_trade_id, conn) ∈ (sync_step conn now st td).store.map recKey := by
  unfold sync_step
  cases hf : find_trade st.store td.deriv_trade_id conn with
  | some r =>
    simp only []
    rw [(update_first_keys st.store td.deriv_trade_id conn td rfl r hf).1]
    rw [← find_trade_isSome_iff]
    simp [hf]
  | none =>
    simp [recKey, freshRec]

theorem sync_step_preserves_key (conn : String) (now : ℕ) (st : SyncState)
    (td : TradeData) (k : String × String)
    (h : k ∈ st.store.map recKey) :
    k ∈ (sync_step conn now st td).store.map recKey := by
  unfold sync_step
  cases hf : find_trade st.store td.deriv_trade_id conn with
  | some r =>
    simp only []
    rw [(update_first_keys st.store td.deriv_trade_id conn td rfl r hf).1]
    exact h
  | none =>
    simp only [List.map_append]
    exact List.mem_append_left _ h

theorem sync_trades_preserves_key (conn : String) (now : ℕ)
    (ts : List TradeData) : ∀ (st : SyncState) (k : String × String),
    k ∈ st.store.map recKey →
    k ∈ (sync_trades conn now ts st).store.map recKey := by
  induction ts with
  | nil => intro st k h; exact h
  | cons td rest ih =>
    intro st k h
    exact ih (sync_step conn now st td) k (sync_step_preserves_key conn now st td k h)

theorem sync_trades_keys_present (conn : String) (now : ℕ)
    (ts : List TradeData) : ∀ (st : SyncState) (td : TradeData), td ∈ ts →
    (td.deriv_trade_id, conn) ∈ (sync_trades conn now ts st).store.map recKey := by
  induction ts with
  | nil => intro st td h; simp at h
  | cons hd rest ih =>
    intro st td h
    rw [List.mem_cons] at h
    rcases h with rfl | h
    · exact sync_trades_preserves_key conn now rest _ _
        (sync_step_key_present conn now st td)
    · exact ih _ td h

theorem sync_trades_all_updates (conn : String) (now : ℕ)
    (ts : List TradeData) : ∀ (st : SyncState),
    (∀ td ∈ ts, (td.deriv_trade_id, conn) ∈ st.store.map recKey) →
    (sync_trades conn now ts st).trades_new = st.trades_new ∧
    (sync_trades conn now ts st).store.map recKey = st.store.map recKey ∧
    (sync_trades conn now ts st).store.length = st.store.length ∧
    (sync_trades conn now ts st).trades_updated = st.trades_updated + ts.length ∧
    (∀ x ∈ (sync_trades conn now ts st).store,
      ∃ y ∈ st.store, x.id = y.id ∧ x.created_at = y.created_at) := by
  induction ts with
  | nil =>
    intro st h
    exact ⟨rfl, rfl, rfl, rfl, fun x hx => ⟨x, hx, rfl, rfl⟩⟩
  | cons td rest ih =>
    intro st h
    have hk : (td.deriv_trade_id, conn) ∈ st.store.map recKey :=
      h td (by simp)
    have hsome : (find_trade st.store td.deriv_trade_id conn).isSome :=
      (find_trade_isSome_iff _ _ _).mpr hk
    obtain ⟨r, hr⟩ := Option.isSome_iff_exists.mp hsome
    have hstep : sync_step conn now st td =
        { st with store := update_first st.store td.deriv_trade_id conn td,
                  trades_updated := st.trades_updated + 1 } := by
      unfold sync_step
      rw [hr]
    obtain ⟨hkeys, hlen, hids⟩ :=
      update_first_keys st.store td.deriv_trade_id conn td rfl r hr
    have hrest : ∀ td' ∈ rest,
        (td'.deriv_trade_id, conn) ∈ (sync_step conn now st td).store.map recKey := by
      intro td' htd'
      rw [hstep]
      simp only []
      rw [hkeys]
      exact h td' (by simp [htd'])
    obtain ⟨ih1, ih2, ih3, ih4, ih5⟩ := ih (sync_step conn now st td) hrest
    refine ⟨?_, ?_, ?_, ?_, ?_⟩
    · rw [show sync_trades conn now (td :: rest) st =
        sync_trades conn now rest (sync_step conn now st td) from rfl]
      rw [ih1, hstep]
    · rw [show sync_trades conn now (td :: rest) st =
        sync_trades conn now rest (sync_step conn now st td) from rfl]
      rw [ih2, hstep]
      simp only []
      exact hkeys
    · rw [show sync_trades conn now (td :: rest) st =
        sync_trades conn now rest (sync_step conn now st td) from rfl]
      rw [ih3, hstep]
      simp only []
      exact hlen
    · rw [show sync_trades conn now (td :: rest) st =
        sync_trades conn now rest (sync_step conn now st td) from rfl]
      rw [ih4, hstep]
      simp only [List.length_cons]
      omega
    · intro x hx
      rw [show sync_trades conn now (td :: rest) st =
        sync_trades conn now rest (sync_step conn now st td) from rfl] at hx
      obtain ⟨y, hy, hid, hcr⟩ := ih5 x hx
      rw [hstep] at hy
      simp only [] at hy
      obtain ⟨z, hz, hid2, hcr2⟩ := hids y hy
      exact ⟨z, hz, by rw [hid, hid2], by rw [hcr, hcr2]⟩

/-- C8: reconciliation upserts by the dedup key
`(external_trade_id, connection_id)`: a matching record keeps its `id` and
`created_at` and gets every `trade_data` field overwritten and counts as
updated, otherwise a fresh record is inserted and counts as new; re-running
the loop on an unchanged fetched list therefore inserts nothing
(`new = 0`, all entries count as updated), keeps the store's length and key
list identical, and touches no identity/creation field (idempotence). -/
theorem c8_sync_upsert_idempotent (conn : String) (now1 now2 : ℕ)
    (ts : List TradeData) (st0 : SyncState) :
    (∀ (st : SyncState) (td : TradeData) (r : DerivTradeRec),
      find_trade st.store td.deriv_trade_id conn = some r →
      ∃ pre post, st.store = pre ++ r :: post ∧
        (sync_step conn now1 st td).store =
          pre ++ { r with deriv_trade_id := td.deriv_trade_id,
                          payload := td.payload } :: post ∧
        (sync_step conn now1 st td).trades_updated = st.trades_updated + 1 ∧
        (sync_step conn now1 st td).trades_new = st.trades_new) ∧
    (∀ (st : SyncState) (td : TradeData),
      find_trade st.store td.deriv_trade_id conn = none →
      (sync_step conn now1 st td).store =
        st.store ++ [freshRec st.nextId now1 conn td] ∧
      (sync_step conn now1 st td).trades_new = st.trades_new + 1 ∧
      (sync_step conn now1 st td).trades_updated = st.trades_updated) ∧
    ((sync_trades conn now2 ts (rerunState (sync_trades conn now1 ts st0))).trades_new = 0 ∧
     (sync_trades conn now2 ts (rerunState (sync_trades conn now1 ts st0))).trades_updated =
       ts.length ∧
     (sync_trades conn now2 ts (rerunState (sync_trades conn now1 ts st0))).store.map recKey =
       (sync_trades conn now1 ts st0).store.map recKey ∧
     (sync_trades conn now2 ts (rerunState (sync_trades conn now1 ts st0))).store.length =
       (sync_trades conn now1 ts st0).store.length ∧
     ∀ x ∈ (sync_trades conn now2 ts (rerunState (sync_trades conn now1 ts st0))).store,
       ∃ y ∈ (sync_trades conn now1 ts st0).store,
         x.id = y.id ∧ x.created_at = y.created_at) := by
  refine ⟨?_, ?_, ?_⟩
  · intro st td r hfind
    obtain ⟨pre, post, heq, hupd, h1, h2⟩ :=
      update_first_found st.store td.deriv_trade_id conn td r hfind
    refine ⟨pre, post, heq, ?_, ?_, ?_⟩
    · unfold sync_step
      rw [hfind]
      simp only []
      exact hupd
    · unfold sync_step
      rw [hfind]
    · unfold sync_step
      rw [hfind]
  · intro st td hfind
    unfold sync_step
    rw [hfind]
    exact ⟨rfl, rfl, rfl⟩
  · have hpresent : ∀ td ∈ ts, (td.deriv_trade_id, conn) ∈
        (rerunState (sync_trades conn now1 ts st0)).store.map recKey := by
      intro td htd
      exact sync_trades_keys_present conn now1 ts st0 td htd
    obtain ⟨h1, h2, h3, h4, h5⟩ :=
      sync_trades_all_updates conn now2 ts
        (rerunState (sync_trades conn now1 ts st0)) hpresent
    refine ⟨?_, ?_, ?_, ?_, h5⟩
    · rw [h1]; simp [rerunState]
    · rw [h4]; simp [rerunState]
    · rw [h2]; simp [rerunState]
    · rw [h3]; simp [rerunState]

/-- C8 (witness): two runs over a concrete two-trade fetch starting from an
empty store: the second run inserts nothing and preserves the key list. -/
theorem c8_sync_upsert_witness :
    (sync_trades "c1" 2 sampleFetch
      (rerunState (sync_trades "c1" 1 sampleFetch { store := [] }))).trades_new = 0 ∧
    (sync_trades "c1" 2 sampleFetch
      (rerunState (sync_trades "c1" 1 sampleFetch { store := [] }))).store.map recKey =
      (sync_trades "c1" 1 sampleFetch { store := [] }).store.map recKey :=
  have h := c8_sync_upsert_idempotent "c1" 1 2 sampleFetch { store := [] }
  ⟨h.2.2.1, h.2.2.2.2.1⟩

/-- C9 (witness): the chain at the concrete sample frame. -/
theorem c9_chain_deterministic_witness :
    run_analysis sampleDf = run_analysis sampleDf ∧
    (run_analysis sampleDf).callerDf = sampleDf :=
  ⟨(c9_chain_deterministic_pure sampleDf).1, (c9_chain_deterministic_pure sampleDf).2.1⟩
